import Mathlib

/-!
Shallow embedding of the hansei-backend repository (Express + PostgreSQL).

Conventions used throughout:
* JS numbers are modelled as `ℚ` (floating-point rounding of the simulated
  inventory fields is idealised to exact rational arithmetic); integer SQL
  columns are `ℤ`; SERIAL ids are `ℕ`.
* A spreadsheet cell is the already-parsed value of the JS field-access
  chains the code uses (for example the single model field `material`
  stands for `row.material || row.Material`): `none` is a missing cell
  (and, for numeric cells, an unparseable one, which `parseInt`/`parseFloat`
  turn into `NaN` and every use-site in this code defaults away or which
  aborts the statement where noted).
* SQL tables with a UNIQUE key are keyed maps (`String → Option rec`,
  `ℕ × ℕ → Option rec`); `users` (only ever appended to) is a list.
  Timestamp columns (`created_at`, `updated_at`, `last_login`) are omitted:
  no claim mentions them.
* `Math.random()` draws are oracle parameters (`rand : ℕ → ℚ`).
-/

namespace Js

/-- Truthiness of an optional JS string: `undefined`, `null` and `""` are falsy. -/
def truthyStr (s : Option String) : Bool :=
  match s with
  | none => false
  | some x => x ≠ ""

/-- JS `a || b` on optional strings: `a` when truthy, else `b`. -/
def orStr (a b : Option String) : Option String :=
  if truthyStr a then a else b

/-- JS `a || "d"` with a string-literal default. -/
def orStrD (a : Option String) (d : String) : String :=
  (orStr a (some d)).getD d

/-- JS template interpolation of a possibly `undefined` value. -/
def jsStr (a : Option String) : String := a.getD "undefined"

/-- JS `parseFloat(cell) || d`: a missing/unparseable cell (NaN) and a parsed
0 are both falsy, so both give the default. -/
def orQ (a : Option ℚ) (d : ℚ) : ℚ :=
  match a with
  | none => d
  | some x => if x = 0 then d else x

/-- JS `parseInt(cell) || d` with the same falsiness rule. -/
def orZ (a : Option ℤ) (d : ℤ) : ℤ :=
  match a with
  | none => d
  | some x => if x = 0 then d else x

/-- JS `Math.round`: round half toward positive infinity. -/
def round (q : ℚ) : ℤ := ⌊q + 1/2⌋

/-- JS `Math.floor` on a number. -/
def floorQ (q : ℚ) : ℤ := ⌊q⌋

/-- Does the char list `pat` occur at the head of `l`? (helper for `includes`). -/
def leadMatch : List Char → List Char → Bool
  | _, [] => true
  | [], _ :: _ => false
  | c :: l, p :: ps => c = p && leadMatch l ps

/-- Does the char list `pat` occur contiguously anywhere in `l`? -/
def containsSeq : List Char → List Char → Bool
  | [], pat => pat.isEmpty
  | c :: l, pat => leadMatch (c :: l) pat || containsSeq l pat

/-- JS `s.includes(pat)`. -/
def includes (s pat : String) : Bool := containsSeq s.data pat.data

/-- JS `s.split(sep)` for a one-character separator, on the underlying
character list. -/
def splitOnChar (sep : Char) : List Char → List (List Char)
  | [] => [[]]
  | c :: t =>
    if c = sep then [] :: splitOnChar sep t
    else
      match splitOnChar sep t with
      | [] => [[c]]
      | h :: rest => (c :: h) :: rest

/-- JS `s.split('-')` as strings. -/
def splitDash (s : String) : List String := (splitOnChar '-' s.data).map String.mk

/-- JS `s.split(' ')` as strings. -/
def splitSpace (s : String) : List String := (splitOnChar ' ' s.data).map String.mk

end Js

namespace Model

/-- One row of the `users` table. -/
structure UserRec where
  username : String
  password : String
  fullName : String
  role : String
deriving DecidableEq, Repr

/-- One row of the `branches` table (key: `name`, UNIQUE). -/
structure BranchRec where
  id : ℕ
  state : String
  marketShare : Option ℚ
  penetration : Option ℚ
deriving DecidableEq, Repr

/-- One row of the `products` table (key: `material`, UNIQUE).
`tonnage` is a nullable-free NUMERIC column but `parseFloat` can feed it
NaN, modelled as `none`. -/
structure ProductRec where
  id : ℕ
  tonnage : Option ℚ
  star : ℤ
  technology : String
  price : ℤ
  factoryStock : ℤ
deriving DecidableEq, Repr

/-- One row of the `inventory` table (key: `(product_id, branch_id)`, UNIQUE). -/
structure InvRec where
  opStock : ℤ
  avlStock : ℤ
  transit : ℤ
  billing : ℤ
  monthPlan : ℤ
deriving DecidableEq, Repr

/-- The PostgreSQL database state the import paths touch. -/
@[ext]
structure DB where
  users : List UserRec
  branches : String → Option BranchRec
  products : String → Option ProductRec
  inventory : ℕ × ℕ → Option InvRec
  nextBranchId : ℕ
  nextProductId : ℕ

/-- A freshly created database: empty tables, SERIAL counters at 1. -/
def emptyDB : DB :=
  { users := []
    branches := fun _ => none
    products := fun _ => none
    inventory := fun _ => none
    nextBranchId := 1
    nextProductId := 1 }

/-- `INSERT INTO branches ... ON CONFLICT (name) DO NOTHING`. -/
def insertBranchIfAbsent (db : DB) (name state : String)
    (ms pen : Option ℚ) : DB :=
  match db.branches name with
  | some _ => db
  | none =>
    { db with
      branches := fun n =>
        if n = name then some ⟨db.nextBranchId, state, ms, pen⟩ else db.branches n
      nextBranchId := db.nextBranchId + 1 }

/-- The `getStateForBranch` lookup table shared verbatim by
`routes/upload.js` and both import scripts. -/
def getStateForBranch (branch : String) : String :=
  if branch = "Chennai" then "Tamil Nadu"
  else if branch = "Bangalore" then "Karnataka"
  else if branch = "Hyderabad" then "Telangana"
  else if branch = "Vijayawada" then "Andhra Pradesh"
  else if branch = "Cochin" then "Kerala"
  else if branch = "Mumbai" then "Maharashtra"
  else if branch = "Delhi" then "Delhi"
  else if branch = "Kolkata" then "West Bengal"
  else if branch = "Pune" then "Maharashtra"
  else if branch = "Ahmedabad" then "Gujarat"
  else "Unknown"

/-- Run a list of database statements in order under a failure oracle:
`failAt = some k` makes the k-th statement raise; the statements before it
have already taken effect. Returns the database as the connection leaves it
and whether the run completed. -/
def execSteps : List (DB → DB) → Option ℕ → DB → DB × Bool
  | [], _, db => (db, true)
  | s :: t, none, db => execSteps t none (s db)
  | _ :: _, some 0, db => (db, false)
  | s :: t, some (n + 1), db => execSteps t (some n) (s db)

/-- `BEGIN; steps; COMMIT` with `ROLLBACK` in the catch block: on failure the
database reverts to its state before the run and the error is reported. -/
def runTransaction (steps : List (DB → DB)) (failAt : Option ℕ) (db : DB) :
    DB × Bool :=
  match execSteps steps failAt db with
  | (db', true) => (db', true)
  | (_, false) => (db, false)

/-- Statements issued directly on the pool with no surrounding transaction
(`scripts/import-excel.js`, `importExcelData`): a failure leaves every
already-executed write in place. -/
def runNoTransaction (steps : List (DB → DB)) (failAt : Option ℕ) (db : DB) :
    DB × Bool :=
  execSteps steps failAt db

/-- Apply statements in order (the completed run). -/
def applySteps (steps : List (DB → DB)) (db : DB) : DB :=
  steps.foldl (fun db s => s db) db

end Model

/-! Spreadsheet rows. One structure models the dynamic JS row object for all
processing functions; each field stands for the parsed value of the
field-access chain the code performs on that column. -/

/-- A parsed spreadsheet row. -/
structure Row where
  itemCode : Option String
  material : Option String
  branch : Option String
  technology : Option String
  salesQty : Option ℚ
  tonnage : Option ℚ
  star : Option ℤ
  price : Option ℤ
  opStock : Option ℤ
  avlStock : Option ℤ
  transit : Option ℤ
  billing : Option ℤ
  monthPlan : Option ℤ
  factoryStock : Option ℤ
deriving DecidableEq, Repr

/-- A row with every cell missing. -/
def Row.blank : Row :=
  ⟨none, none, none, none, none, none, none, none, none, none, none, none, none, none⟩

/-! Embedding of `routes/upload.js`: the transactional upload endpoint and
its two processing functions. -/

namespace Upload

open Model

/-- The `generateProductPrice` helper of `routes/upload.js`. -/
def generateProductPrice (row : Row) : ℤ :=
  let tonnage := Js.orQ row.tonnage 1
  let star := Js.orZ row.star 3
  let technology := Js.orStrD row.technology "Non Inv"
  Js.round (25000 + (tonnage - 8/10) * 15000 + ((star : ℚ) - 1) * 5000
    + (if Js.includes technology "Inv" then 10000 else 0))

/-- The in-memory product a first pass of `processCSVSalesData` collects for
one item code. -/
structure ProdSpec where
  material : String
  tonnage : ℚ
  star : ℤ
  technology : String
  price : ℤ
deriving DecidableEq, Repr

/-- The product attributes `processCSVSalesData` reads off a row. -/
def prodOfRow (code : String) (row : Row) : ProdSpec :=
  { material := code
    tonnage := Js.orQ row.tonnage 1
    star := Js.orZ row.star 3
    technology := Js.orStrD row.technology "Non Inv"
    price := generateProductPrice row }

/-- First pass of `processCSVSalesData`: the `products` Map keyed by
`Item Code`, first occurrence wins, insertion order kept. -/
def collectProducts (data : List Row) : List ProdSpec :=
  data.foldl
    (fun acc row =>
      match row.itemCode with
      | none => acc
      | some code =>
        if code = "" then acc
        else if acc.any (fun p => p.material = code) then acc
        else acc ++ [prodOfRow code row])
    []

/-- The `branches` Set of `processCSVSalesData`: truthy `Branch` cells,
deduplicated in first-occurrence order. -/
def collectBranches (data : List Row) : List String :=
  data.foldl
    (fun acc row =>
      match row.branch with
      | none => acc
      | some b => if b = "" then acc else if b ∈ acc then acc else acc ++ [b])
    []

/-- The branch insertion loop: `INSERT ... (name, state) ... DO NOTHING`
(market share and penetration are left NULL). -/
def insertBranches (names : List String) (db : DB) : DB :=
  names.foldl
    (fun db n => insertBranchIfAbsent db n (getStateForBranch n) none none)
    db

/-- The product insertion loop: `INSERT ... ON CONFLICT (material) DO NOTHING`
(factory_stock takes its column DEFAULT 0). -/
def insertProducts (ps : List ProdSpec) (db : DB) : DB :=
  ps.foldl
    (fun db p =>
      match db.products p.material with
      | some _ => db
      | none =>
        { db with
          products := fun m =>
            if m = p.material then
              some ⟨db.nextProductId, some p.tonnage, p.star, p.technology, p.price, 0⟩
            else db.products m
          nextProductId := db.nextProductId + 1 })
    db

/-- The aggregation key: the template literal built from a pair. -/
def makeKey (code branch : String) : String := code ++ "-" ++ branch

/-- The aggregation key of a row; a missing cell interpolates as "undefined". -/
def aggKey (row : Row) : String := makeKey (Js.jsStr row.itemCode) (Js.jsStr row.branch)

/-- Decoding in the inventory loop: `const [itemCode, branchName] = key.split('-')`
(a missing destructured component is `undefined`). -/
def decodeKey (s : String) : Option String × Option String :=
  ((Js.splitDash s)[0]?, (Js.splitDash s)[1]?)

/-- Add `q` to the total for `k`, creating the entry at the back when new
(JS Map insertion order). -/
def bumpKey : List (String × ℚ) → String → ℚ → List (String × ℚ)
  | [], k, q => [(k, q)]
  | (k', q') :: t, k, q =>
    if k' = k then (k', q' + q) :: t else (k', q') :: bumpKey t k q

/-- The sales aggregation Map of `processCSVSalesData`: rows whose
`parseFloat(row['Sales Qty.']) || 0` is positive, keyed by the template key. -/
def aggregateSales (data : List Row) : List (String × ℚ) :=
  data.foldl
    (fun acc row =>
      let salesQty := Js.orQ row.salesQty 0
      if salesQty > 0 then bumpKey acc (aggKey row) salesQty else acc)
    []

/-- The simulated inventory record the CSV sales path inserts for one
aggregated total. -/
def invRecOfTotal (tot : ℚ) : InvRec :=
  let billing := Js.round tot
  let monthPlan := Js.round ((billing : ℚ) * (12/10))
  let availStock := Js.round ((billing : ℚ) * (5/10))
  let transit := Js.round ((billing : ℚ) * (2/10))
  let opStock := availStock + billing - transit
  ⟨opStock, availStock, transit, billing, monthPlan⟩

/-- `INSERT INTO inventory ... ON CONFLICT (product_id, branch_id) DO UPDATE`
with the ADDITIVE conflict action of the CSV sales path
(`billing = inventory.billing + EXCLUDED.billing`, and likewise for every
other column). -/
def upsertInventoryAdd (db : DB) (pid bid : ℕ) (v : InvRec) : DB :=
  { db with
    inventory := fun k =>
      if k = (pid, bid) then
        match db.inventory (pid, bid) with
        | none => some v
        | some old =>
          some ⟨old.opStock + v.opStock, old.avlStock + v.avlStock,
                old.transit + v.transit, old.billing + v.billing,
                old.monthPlan + v.monthPlan⟩
      else db.inventory k }

/-- One iteration of the inventory write loop of `processCSVSalesData`:
decode the key, look the ids up, and guard `if (productId && branchId)`
(an id of 0 is falsy in JS). -/
def invWriteStep (kv : String × ℚ) (db : DB) : DB :=
  let dec := decodeKey kv.1
  let pid := dec.1.bind (fun ic => (db.products ic).map (fun p => p.id))
  let bid := dec.2.bind (fun bn => (db.branches bn).map (fun b => b.id))
  match pid, bid with
  | some pid, some bid =>
    if pid ≠ 0 ∧ bid ≠ 0 then upsertInventoryAdd db pid bid (invRecOfTotal kv.2)
    else db
  | _, _ => db

/-- `processCSVSalesData` of `routes/upload.js`: collect, insert branches and
products, aggregate, then write inventory (the id maps are re-read from the
database after the inserts). -/
def processCSVSalesData (data : List Row) (db : DB) : DB :=
  let db1 := insertBranches (collectBranches data) db
  let db2 := insertProducts (collectProducts data) db1
  (aggregateSales data).foldl (fun db kv => invWriteStep kv db) db2

/-- The overwriting inventory upsert of `processExcelInventoryData`
(`op_stock = EXCLUDED.op_stock`, ...). -/
def upsertInventorySet (db : DB) (pid bid : ℕ) (v : InvRec) : DB :=
  { db with
    inventory := fun k => if k = (pid, bid) then some v else db.inventory k }

/-- The integer column values `processExcelInventoryData` parses from a row
(`parseInt(row.op_stock || row['Op Stock'] || 0)`, ...). -/
def rowInvVals (row : Row) : InvRec :=
  ⟨Js.orZ row.opStock 0, Js.orZ row.avlStock 0, Js.orZ row.transit 0,
   Js.orZ row.billing 0, Js.orZ row.monthPlan 0⟩

/-- Row resolution of `processExcelInventoryData`: skip rows with a falsy
material or branch (`continue`), run the two SELECT lookups, and return the
targeted inventory key when both rows exist (the guard is on row COUNT, not
id truthiness). -/
def excelTarget (row : Row) (P : String → Option Model.ProductRec)
    (B : String → Option Model.BranchRec) : Option (ℕ × ℕ) :=
  if Js.truthyStr row.material ∧ Js.truthyStr row.branch then
    match row.material, row.branch with
    | some m, some b =>
      match P m, B b with
      | some p, some β => some (p.id, β.id)
      | _, _ => none
    | _, _ => none
  else none

/-- One iteration of `processExcelInventoryData`: resolve the row and
overwrite-upsert the parsed integer columns at the resolved key. -/
def excelInvStep (row : Row) (db : DB) : DB :=
  match excelTarget row db.products db.branches with
  | some k => upsertInventorySet db k.1 k.2 (rowInvVals row)
  | none => db

/-- `processExcelInventoryData` of `routes/upload.js` (the direct-inventory
upload format). -/
def processExcelInventoryData (data : List Row) (db : DB) : DB :=
  data.foldl (fun db row => excelInvStep row db) db

/-- The per-statement decomposition of the CSV sales path, used to inject
failures under the route transaction. -/
def csvSalesSteps (data : List Row) : List (DB → DB) :=
  ((collectBranches data).map
      (fun n db => insertBranchIfAbsent db n (getStateForBranch n) none none))
    ++ ((collectProducts data).map
      (fun p db =>
        match db.products p.material with
        | some _ => db
        | none =>
          { db with
            products := fun m =>
              if m = p.material then
                some ⟨db.nextProductId, some p.tonnage, p.star, p.technology, p.price, 0⟩
              else db.products m
            nextProductId := db.nextProductId + 1 }))
    ++ ((aggregateSales data).map (fun kv db => invWriteStep kv db))

/-- The upload endpoint `router.post('/')` on a CSV sales file: `BEGIN`, the
processing statements, `COMMIT`, with `ROLLBACK` and a 500 response in the
catch block; 200 on success. -/
def uploadRoute (data : List Row) (failAt : Option ℕ) (db : DB) : DB × ℕ :=
  let r := runTransaction (csvSalesSteps data) failAt db
  (r.1, if r.2 then 200 else 500)

end Upload

/-! Embedding of `scripts/import-excel.js` (the CSV sales import script,
`importCSVSalesData`): truncate, default users, branches, deduplicated
products, aggregation, simulated inventory — all inside one transaction
with ROLLBACK and a rethrow on error. -/

namespace ImportCsv

open Model

/-- The `generatePrice` helper of the script (the material argument is unused
by the source too). -/
def generatePrice (material : String) (tonnage : ℚ) (star : ℤ)
    (technology : String) : ℤ :=
  let _ := material
  Js.round (25000 + (tonnage - 8/10) * 15000 + ((star : ℚ) - 1) * 5000
    + (if Js.includes technology "Inv" then 10000 else 0))

/-- TRUNCATE TABLE inventory, products, branches, users RESTART IDENTITY. -/
def truncateAll (_db : DB) : DB := emptyDB

/-- The default `smart` and `normal` users; the bcrypt hashes are oracle
parameters. -/
def insertDefaultUsers (h1 h2 : String) (db : DB) : DB :=
  { db with
    users := db.users ++
      [⟨"smart", h1, "Smart User", "smart_user"⟩,
       ⟨"normal", h2, "Normal User", "normal_user"⟩] }

/-- The script's branch list: `[...new Set(data.map(row => row.Branch))].filter(Boolean)`. -/
def branchList (data : List Row) : List String :=
  (((data.map (fun r => r.branch)).foldl
      (fun acc b => if b ∈ acc then acc else acc ++ [b]) []).filterMap id).filter
    (fun b => b ≠ "")

/-- One branch insert of the script: DO NOTHING, with random market share and
penetration. -/
def branchStep (rand : ℕ → ℚ) (i : ℕ) (n : String) (db : DB) : DB :=
  insertBranchIfAbsent db n (getStateForBranch n)
    (some ((Js.floorQ (rand (2 * i) * 10) + 15 : ℤ) : ℚ))
    (some ((Js.floorQ (rand (2 * i + 1) * 20) + 65 : ℤ) : ℚ))

/-- The branch statements of the script, one per branch name, threading the
index of the random draws. -/
def branchSteps (rand : ℕ → ℚ) : ℕ → List String → List (DB → DB)
  | _, [] => []
  | i, n :: t => branchStep rand i n :: branchSteps rand (i + 1) t

/-- The branch phase of the script. -/
def insertBranchesPhase (names : List String) (rand : ℕ → ℚ) (db : DB) : DB :=
  applySteps (branchSteps rand 0 names) db

/-- An entry of the script's in-memory `products` object. -/
structure ProdSpec where
  material : String
  tonnage : ℚ
  star : ℤ
  technology : String
  price : ℤ
  factoryStock : ℤ
deriving DecidableEq, Repr

/-- The product attributes the script reads off a row, with the safe-parse
defaults (`safeParseFloat(row['Tonnage'], 1.0)`, `safeParseInt(row['Star rating'], 3)`,
`row['Technology'] || 'Non Inv'`, factory_stock fixed to 0). -/
def prodOfRow (code : String) (row : Row) : ProdSpec :=
  let tonnage := row.tonnage.getD 1
  let star := row.star.getD 3
  let technology := Js.orStrD row.technology "Non Inv"
  ⟨code, tonnage, star, technology, generatePrice code tonnage star technology, 0⟩

/-- One `data.forEach` iteration of the script's product collection: a falsy
`Item Code` is skipped, a code already collected keeps its first entry. -/
def collectStep (acc : List ProdSpec) (row : Row) : List ProdSpec :=
  match row.itemCode with
  | none => acc
  | some code =>
    if code = "" then acc
    else if acc.any (fun p => p.material = code) then acc
    else acc ++ [prodOfRow code row]

/-- The script's `products` object: keyed by truthy `Item Code`, first
occurrence wins. -/
def collectProducts (data : List Row) : List ProdSpec :=
  data.foldl collectStep []

/-- One product insert of the script: `ON CONFLICT (material) DO UPDATE SET`
every attribute (the id of an existing row is kept). -/
def productStep (p : ProdSpec) (db : DB) : DB :=
  match db.products p.material with
  | some old =>
    { db with
      products := fun m =>
        if m = p.material then
          some ⟨old.id, some p.tonnage, p.star, p.technology, p.price, p.factoryStock⟩
        else db.products m }
  | none =>
    { db with
      products := fun m =>
        if m = p.material then
          some ⟨db.nextProductId, some p.tonnage, p.star, p.technology, p.price,
                p.factoryStock⟩
        else db.products m
      nextProductId := db.nextProductId + 1 }

/-- The product phase of the script. -/
def insertProductsPhase (ps : List ProdSpec) (db : DB) : DB :=
  ps.foldl (fun db p => productStep p db) db

/-- An entry of the script's in-memory `inventory` aggregation object: the
pair is stored alongside the running total (no string decoding happens on
this path). -/
structure AggEntry where
  itemCode : String
  branchName : String
  totalSales : ℚ
  transactionCount : ℕ
deriving DecidableEq, Repr

/-- Add one row's quantity to the entry for `k`, creating it at the back
when new. -/
def bumpAgg : List (String × AggEntry) → String → String → String → ℚ →
    List (String × AggEntry)
  | [], k, ic, bn, q => [(k, ⟨ic, bn, q, 1⟩)]
  | (k', e) :: t, k, ic, bn, q =>
    if k' = k then
      (k', { e with totalSales := e.totalSales + q,
                    transactionCount := e.transactionCount + 1 }) :: t
    else (k', e) :: bumpAgg t k ic bn q

/-- One `data.forEach` iteration of the script's aggregation: rows with a
truthy item code, truthy branch and positive
`safeParseFloat(row['Sales Qty.'], 0)` bump the entry keyed by the template
literal itemCode-branchName. -/
def aggStep (acc : List (String × AggEntry)) (row : Row) : List (String × AggEntry) :=
  match row.itemCode, row.branch with
  | some ic, some bn =>
    let salesQty := row.salesQty.getD 0
    if ic ≠ "" ∧ bn ≠ "" ∧ salesQty > 0 then
      bumpAgg acc (Upload.makeKey ic bn) ic bn salesQty
    else acc
  | _, _ => acc

/-- The script's aggregation loop. -/
def aggregateSales (data : List Row) : List (String × AggEntry) :=
  data.foldl aggStep []

/-- Lookup of a key in the in-memory aggregation object. -/
def lookupAgg : List (String × AggEntry) → String → Option AggEntry
  | [], _ => none
  | (k2, e) :: t, k => if k2 = k then some e else lookupAgg t k

/-- Provenance of an aggregation entry: its key is the template literal of
its stored pair, the pair is truthy, and some row of the file carries it. -/
def entryFromData (data : List Row) (x : String × AggEntry) : Prop :=
  x.1 = Upload.makeKey x.2.itemCode x.2.branchName
    ∧ x.2.itemCode ≠ "" ∧ x.2.branchName ≠ ""
    ∧ ∃ r ∈ data, r.itemCode = some x.2.itemCode ∧ r.branch = some x.2.branchName

/-- The specified aggregate of C6: the sum of the parsed sales quantities of
the rows for the pair (c, b) whose quantity is positive (rows with a missing
item code or branch never equal `some c` or `some b` and contribute
nothing). -/
def posTotal (c b : String) (data : List Row) : ℚ :=
  ((data.filter (fun r =>
      decide (r.itemCode = some c ∧ r.branch = some b ∧ r.salesQty.getD 0 > 0))).map
    (fun r => r.salesQty.getD 0)).sum

/-- One inventory insert of the script: look both ids up in the maps read
back from the database, guard `if (productId && branchId)`, and
overwrite-upsert billing plus three randomly simulated fields. -/
def invStep (rand : ℕ → ℚ) (i : ℕ) (e : AggEntry) (db : DB) : DB :=
  match db.products e.itemCode, db.branches e.branchName with
  | some p, some β =>
    if p.id ≠ 0 ∧ β.id ≠ 0 then
      let billing := Js.round e.totalSales
      let monthPlan := Js.round ((billing : ℚ) * (9/10 + rand (4 * i) * (4/10)))
      let availStock := Js.round ((monthPlan : ℚ) * (1/10 + rand (4 * i + 1) * (8/10)))
      let transit := Js.round ((monthPlan : ℚ) * (5/100 + rand (4 * i + 2) * (15/100)))
      let opStock := Js.round ((availStock : ℚ) + (billing : ℚ) + rand (4 * i + 3) * 100)
      Upload.upsertInventorySet db p.id β.id ⟨opStock, availStock, transit, billing, monthPlan⟩
    else db
  | _, _ => db

/-- The inventory statements of the script, one per aggregated entry,
threading the index of the random draws. -/
def invSteps (rand : ℕ → ℚ) : ℕ → List (String × AggEntry) → List (DB → DB)
  | _, [] => []
  | i, x :: t => invStep rand i x.2 :: invSteps rand (i + 1) t

/-- The inventory phase of the script. -/
def invPhase (agg : List (String × AggEntry)) (rand : ℕ → ℚ) (db : DB) : DB :=
  applySteps (invSteps rand 0 agg) db

/-- The complete successful run of `importCSVSalesData` (phases in source
order; the id maps are read back from the database between phases, which the
state threading models). -/
def importCSVSalesData (data : List Row) (h1 h2 : String)
    (randB randI : ℕ → ℚ) (db : DB) : DB :=
  invPhase (aggregateSales data) randI
    (insertProductsPhase (collectProducts data)
      (insertBranchesPhase (branchList data) randB
        (insertDefaultUsers h1 h2 (truncateAll db))))

/-- The per-statement decomposition of the script's transaction body. -/
def importSteps (data : List Row) (h1 h2 : String) (randB randI : ℕ → ℚ) :
    List (DB → DB) :=
  [truncateAll, insertDefaultUsers h1 h2]
    ++ branchSteps randB 0 (branchList data)
    ++ ((collectProducts data).map (fun p db => productStep p db))
    ++ invSteps randI 0 (aggregateSales data)

/-- The script run with its BEGIN/COMMIT/ROLLBACK frame: on any failure the
transaction rolls back and `importCSVSalesData` rethrows. -/
def importCSVScriptRun (data : List Row) (h1 h2 : String)
    (randB randI : ℕ → ℚ) (failAt : Option ℕ) (db : DB) : DB × Bool :=
  runTransaction (importSteps data h1 h2 randB randI) failAt db

end ImportCsv

/-! Embedding of the Excel import script (`importExcelData`): the same
pipeline shape as the CSV script, but issued directly on the pool — there is
no BEGIN/COMMIT/ROLLBACK around its statements. -/

namespace ImportXlsx

open Model

/-- The script's `parseTonnage`: inferred from the material code. -/
def parseTonnage (material : String) : ℚ :=
  if Js.includes material "RL50" then 3/2
  else if Js.includes material "RHT50" then 3/2
  else 1

/-- The script's `parseStar`. -/
def parseStar (material : String) : ℤ :=
  if Js.includes material "UV16V3" then 3
  else if Js.includes material "UV16V" then 5
  else 3

/-- The script's `parseTechnology`. -/
def parseTechnology (material : String) : String :=
  if Js.includes material "RHT" then "H&C Inv"
  else if Js.includes material "RL" then "Non Inv"
  else "Non Inv"

/-- The script's `generatePrice`, driven entirely by the material code. -/
def generatePrice (material : String) : ℤ :=
  let tonnage := parseTonnage material
  let star := parseStar material
  let tech := parseTechnology material
  Js.round (25000 + (tonnage - 8/10) * 15000 + ((star : ℚ) - 1) * 5000
    + (if Js.includes tech "Inv" then 10000 else 0))

/-- The product entry collected for a truthy item code, first row wins
(`factory_stock` is `parseInt(row['Factory Stock']) || 0` of that row). -/
def prodOfRow (code : String) (row : Row) : ImportCsv.ProdSpec :=
  ⟨code, parseTonnage code, parseStar code, parseTechnology code,
   generatePrice code, Js.orZ row.factoryStock 0⟩

/-- The script's in-memory `products` object. -/
def collectProducts (data : List Row) : List ImportCsv.ProdSpec :=
  data.foldl
    (fun acc row =>
      match row.itemCode with
      | none => acc
      | some code =>
        if code = "" then acc
        else if acc.any (fun p => p.material = code) then acc
        else acc ++ [prodOfRow code row])
    []

/-- One product insert: `ON CONFLICT (material) DO UPDATE SET factory_stock = $6`
(only factory_stock changes on conflict). -/
def productStep (p : ImportCsv.ProdSpec) (db : DB) : DB :=
  match db.products p.material with
  | some old =>
    { db with
      products := fun m =>
        if m = p.material then some { old with factoryStock := p.factoryStock }
        else db.products m }
  | none =>
    { db with
      products := fun m =>
        if m = p.material then
          some ⟨db.nextProductId, some p.tonnage, p.star, p.technology, p.price,
                p.factoryStock⟩
        else db.products m
      nextProductId := db.nextProductId + 1 }

/-- One inventory write: guard
`itemCode && branchName && productMap[itemCode] && branchMap[branchName]`
(all four by JS truthiness, so an id of 0 is also skipped), then an
overwrite upsert of the parsed integer columns. -/
def invStep (row : Row) (db : DB) : DB :=
  match row.itemCode, row.branch with
  | some ic, some bn =>
    if ic ≠ "" ∧ bn ≠ "" then
      match db.products ic, db.branches bn with
      | some p, some β =>
        if p.id ≠ 0 ∧ β.id ≠ 0 then
          Upload.upsertInventorySet db p.id β.id
            ⟨Js.orZ row.opStock 0, Js.orZ row.avlStock 0, Js.orZ row.transit 0,
             Js.orZ row.billing 0, Js.orZ row.monthPlan 0⟩
        else db
      | _, _ => db
    else db
  | _, _ => db

/-- The statement list of `importExcelData`, in source order. -/
def importSteps (data : List Row) (h1 h2 : String) (randB : ℕ → ℚ) :
    List (DB → DB) :=
  [ImportCsv.truncateAll, ImportCsv.insertDefaultUsers h1 h2]
    ++ ImportCsv.branchSteps randB 0 (ImportCsv.branchList data)
    ++ ((collectProducts data).map (fun p db => productStep p db))
    ++ (data.map (fun row db => invStep row db))

/-- `importExcelData`: the statements run directly on the pool, with no
transaction; the catch block only logs and rethrows. -/
def importExcelData (data : List Row) (h1 h2 : String) (randB : ℕ → ℚ)
    (failAt : Option ℕ) (db : DB) : DB × Bool :=
  runNoTransaction (importSteps data h1 h2 randB) failAt db

end ImportXlsx

/-! Embedding of the second upload-route variant (the file appended after
`routes/auth.js`): its `processData` wraps each dataType in a transaction;
`processProductData` and `processInventoryData` are its overwrite upserts. -/

namespace UploadV2

open Model

/-- The upserted product attribute values of one `processProductData` row
(`parseFloat(row.tonnage || row.Tonnage)` with no default: a missing or
unparseable cell is NaN, `none` here; star and price have no default either
and their columns are INTEGER, so NaN aborts the statement — see
`processProductData`). -/
def rowProdVals (id : ℕ) (row : Row) (tech : String) (star price : ℤ) : ProductRec :=
  ⟨id, row.tonnage, star, tech, price, (row.factoryStock).getD 0⟩

/-- One overwrite upsert of `processProductData`:
`ON CONFLICT (material) DO UPDATE SET` every attribute, keeping the id. -/
def productSet (db : DB) (m : String) (row : Row) (tech : String)
    (star price : ℤ) : DB :=
  match db.products m with
  | some old =>
    { db with
      products := fun m' =>
        if m' = m then some (rowProdVals old.id row tech star price)
        else db.products m' }
  | none =>
    { db with
      products := fun m' =>
        if m' = m then some (rowProdVals db.nextProductId row tech star price)
        else db.products m'
      nextProductId := db.nextProductId + 1 }

/-- `processProductData`: insert or overwrite one product per row. A row
whose material chain is `undefined` (NULL into a NOT NULL column), whose
technology chain is `undefined`, or whose star or price parse to NaN (an
INTEGER column) aborts with an error, which the caller's transaction frame
turns into a rollback. -/
def processProductData : List Row → DB → Except Unit DB
  | [], db => .ok db
  | row :: rest, db =>
    match row.material, row.technology, row.star, row.price with
    | some m, some tech, some star, some price =>
      processProductData rest (productSet db m row tech star price)
    | _, _, _, _ => .error ()

/-- One row of this variant's `processInventoryData`: look both ids up (a
missing cell queries as NULL and matches nothing) and overwrite-upsert the
parsed integer columns when both rows exist. -/
def invSetStep (row : Row) (db : DB) : DB :=
  match row.material.bind db.products, row.branch.bind db.branches with
  | some p, some β =>
    Upload.upsertInventorySet db p.id β.id
      ⟨Js.orZ row.opStock 0, Js.orZ row.avlStock 0, Js.orZ row.transit 0,
       Js.orZ row.billing 0, Js.orZ row.monthPlan 0⟩
  | _, _ => db

/-- This variant's `processInventoryData` (overwrite conflict action). -/
def processInventoryData (data : List Row) (db : DB) : DB :=
  data.foldl (fun db row => invSetStep row db) db

end UploadV2

/-! Embedding of `middleware/auth.js` and the route guard chain of the
upload endpoint. JWT verification is an oracle `verify : String → VerifyResult`. -/

namespace Mw

/-- The decoded JWT payload `jwt.sign` puts into a token. -/
structure JwtPayload where
  id : ℕ
  username : String
  role : String
  fullName : String
deriving DecidableEq, Repr

/-- The three outcomes of one `jwt.verify` call. -/
inductive VerifyResult where
  | expired
  | invalid
  | ok (user : JwtPayload)
deriving DecidableEq, Repr

/-- What a middleware does with a request: answer it, or pass an
authenticated user on to the next handler. -/
inductive MwOutcome where
  | reject (status : ℕ) (error : String)
  | proceed (user : JwtPayload)
deriving DecidableEq, Repr

/-- Token extraction: `authHeader && authHeader.split(' ')[1]`. A missing
header stays missing; an empty header is falsy and short-circuits to itself,
which then fails the `token == null` test and is verified (and rejected) as
a ill-formed token; otherwise the part after the first space, which can be
absent. -/
def tokenOf (h : Option String) : Option String :=
  match h with
  | none => none
  | some s => if s = "" then some "" else (Js.splitSpace s)[1]?

/-- The `authenticateToken` middleware: 401 with no token, one verify call
with two error branches (401 expired / 403 invalid), on success attach the
payload and call `next()`. -/
def authenticateToken (verify : String → VerifyResult) (h : Option String) :
    MwOutcome :=
  match tokenOf h with
  | none => .reject 401 "Unauthorized: No token provided"
  | some t =>
    match verify t with
    | .expired => .reject 401 "Unauthorized: Token has expired."
    | .invalid => .reject 403 "Forbidden: Invalid token."
    | .ok user => .proceed user

/-- The `authorizeRole(role)` middleware, run after `authenticateToken`:
`req.user && req.user.role === role`. -/
def authorizeRole (role : String) (user : Option JwtPayload) : MwOutcome :=
  match user with
  | some u =>
    if u.role = role then .proceed u
    else .reject 403 "Forbidden: You do not have the required permissions."
  | none => .reject 403 "Forbidden: You do not have the required permissions."

/-- The guard chain of `router.post('/', authenticateToken,
authorizeRole('smart_user'), ...)`: the handler body runs exactly when both
middlewares pass. -/
inductive RouteEntry where
  | errorResponse (status : ℕ) (error : String)
  | handlerRan (user : JwtPayload)
deriving DecidableEq, Repr

/-- Run the two guards of the upload endpoint on a request. -/
def uploadGate (verify : String → VerifyResult) (h : Option String) : RouteEntry :=
  match authenticateToken verify h with
  | .reject s e => .errorResponse s e
  | .proceed u =>
    match authorizeRole "smart_user" (some u) with
    | .reject s e => .errorResponse s e
    | .proceed u' => .handlerRan u'

end Mw

/-! Embedding of the login handler of `routes/auth.js`. bcrypt comparison is
an oracle; the users-table lookup by username returns the stored hash. -/

namespace Login

/-- A login request body (each field can be absent). -/
structure LoginReq where
  username : Option String
  password : Option String
  honeyPot : Option String
deriving DecidableEq, Repr

/-- A login response: status, and either the error body or a success marker
carrying the logged-in username (token contents are irrelevant to the
claims). -/
inductive LoginRes where
  | failure (status : ℕ) (error : String)
  | success (username : String)
deriving DecidableEq, Repr

/-- The shared failure body of the honeypot, unknown-username and
wrong-password branches. -/
def invalidCredentials : LoginRes := .failure 401 "Invalid username or password"

/-- The login handler `router.post('/login')`: honeypot trap first, then
presence validation (400), then user lookup (401), then bcrypt comparison
(401), then success. `findUser` is the SELECT by username (the stored hash);
`compare` is `bcrypt.compare`. -/
def loginHandler (findUser : String → Option String)
    (compare : String → String → Bool) (r : LoginReq) : LoginRes :=
  if Js.truthyStr r.honeyPot then invalidCredentials
  else if ¬ Js.truthyStr r.username ∨ ¬ Js.truthyStr r.password then
    .failure 400 "Username and password are required"
  else
    match r.username, r.password with
    | some username, some password =>
      match findUser username with
      | none => invalidCredentials
      | some hash =>
        if compare password hash then .success username else invalidCredentials
    | _, _ => .failure 400 "Username and password are required"

/-- The three failure causes the claim lists: honeypot filled, username not
found, or wrong password (the latter two on an otherwise well-formed
request). -/
def listedFailure (findUser : String → Option String)
    (compare : String → String → Bool) (r : LoginReq) : Prop :=
  Js.truthyStr r.honeyPot = true
    ∨ (Js.truthyStr r.honeyPot = false ∧
        ∃ username password, r.username = some username ∧ r.password = some password ∧
          username ≠ "" ∧ password ≠ "" ∧
          (findUser username = none ∨
            ∃ hash, findUser username = some hash ∧ compare password hash = false))

end Login

/-! Embedding of `PUT /inventory/:productId/:branchId` from the sales
routes file. -/

namespace SalesRoute

open Model

/-- The request body of the inventory update: absent fields are `null`. -/
structure UpdateBody where
  opStock : Option ℤ
  avlStock : Option ℤ
  transit : Option ℤ
  billing : Option ℤ
  monthPlan : Option ℤ
deriving DecidableEq, Repr

/-- The response of the PUT handler. -/
inductive PutRes where
  | forbidden
  | notFound
  | updated (row : InvRec)
deriving DecidableEq, Repr

/-- The HTTP status each response carries. -/
def PutRes.status : PutRes → ℕ
  | .forbidden => 403
  | .notFound => 404
  | .updated _ => 200

/-- The COALESCE of one update: a null parameter keeps the old column value. -/
def coalesceRow (body : UpdateBody) (old : InvRec) : InvRec :=
  ⟨body.opStock.getD old.opStock, body.avlStock.getD old.avlStock,
   body.transit.getD old.transit, body.billing.getD old.billing,
   body.monthPlan.getD old.monthPlan⟩

/-- The PUT handler: reject a non-`smart_user` with 403, run the UPDATE with
COALESCE on the row matching `(product_id, branch_id)`, answer 404 when the
UPDATE matched no row, else 200 with the updated row. -/
def putInventory (user : Mw.JwtPayload) (pid bid : ℕ) (body : UpdateBody)
    (db : DB) : DB × PutRes :=
  if user.role ≠ "smart_user" then (db, .forbidden)
  else
    match db.inventory (pid, bid) with
    | none => (db, .notFound)
    | some old =>
      let v := coalesceRow body old
      ({ db with
         inventory := fun k => if k = (pid, bid) then some v else db.inventory k },
       .updated v)

end SalesRoute

/-! Embedding of the chatbot route (`routes/chatbot.js`): `processQuery` is a
sequence of substring tests on the lowercased message; the SQL lookups are
implemented against a list-based snapshot of the tables they read, and each
branch also reports the list of SQL statements it issued. -/

namespace Chatbot

/-- An apostrophe, used inside several canned responses. -/
def apo : String := String.mk [Char.ofNat 39]

/-- Digit grouping of `Number.prototype.toLocaleString` (en grouping of
thousands); works on the reversed digit list. -/
def groupDigits : ℕ → List Char → List Char
  | _, [] => []
  | i, c :: t =>
    if i ≠ 0 ∧ i % 3 = 0 then ',' :: c :: groupDigits (i + 1) t
    else c :: groupDigits (i + 1) t

/-- `n.toLocaleString()` for an integer. -/
def localeString (n : ℤ) : String :=
  (if n < 0 then "-" else "")
    ++ String.mk ((groupDigits 0 (toString n.natAbs).data.reverse).reverse)

/-- A stable insertion sort with a Bool comparator, modelling SQL ORDER BY. -/
def insertBy (le : α → α → Bool) (a : α) : List α → List α
  | [] => [a]
  | b :: t => if le a b then a :: b :: t else b :: insertBy le a t

/-- Sort a list stably by `le`. -/
def sortBy (le : α → α → Bool) : List α → List α
  | [] => []
  | a :: t => insertBy le a (sortBy le t)

/-- One inventory row as the chatbot's queries see it. -/
structure ChatInvRow where
  productId : ℕ
  branchId : ℕ
  avlStock : ℤ
  billing : ℤ
  monthPlan : ℤ
deriving DecidableEq, Repr

/-- One product row as the chatbot's queries see it. -/
structure ChatProdRow where
  id : ℕ
  material : String
  technology : String
deriving DecidableEq, Repr

/-- One branch row as the chatbot's queries see it. -/
structure ChatBranchRow where
  id : ℕ
  name : String
deriving DecidableEq, Repr

/-- The table snapshot the chatbot queries read. -/
structure ChatDB where
  inventory : List ChatInvRow
  products : List ChatProdRow
  branches : List ChatBranchRow
deriving DecidableEq, Repr

/-- A chatbot snapshot with empty tables. -/
def emptyChatDB : ChatDB := ⟨[], [], []⟩

/-- The fixed SQL statements `processQuery` can issue, as labels. -/
inductive SqlTag where
  | sumBillingQ
  | sumAvlStockQ
  | countProductsQ
  | techGroupQ
  | branchNamesQ
  | branchStatsQ (name : String)
  | criticalAlertsQ
  | planTotalsQ
  | topSellingQ
  | techSummaryQ
  | lowStockQ
deriving DecidableEq, Repr

/-- SQL `SUM` of an integer column: NULL (here `none`) on an empty row set. -/
def sqlSum (l : List ℤ) : Option ℤ := if l.isEmpty then none else some l.sum

/-- `parseInt(x) || 0` on a SUM result: NULL parses to NaN, which defaults. -/
def numOr0 (o : Option ℤ) : ℤ := o.getD 0

/-- `parseInt(x).toLocaleString()` on a possibly NULL value: NULL renders as
"NaN". -/
def numOrNaN (o : Option ℤ) : String :=
  match o with
  | none => "NaN"
  | some n => localeString n

/-- `SELECT technology, COUNT(*) FROM products GROUP BY technology` (group
order modelled as first occurrence). -/
def techGroups (ps : List ChatProdRow) : List (String × ℕ) :=
  ps.foldl
    (fun acc p =>
      let bump : List (String × ℕ) → List (String × ℕ) := fun l =>
        match l.find? (fun g => g.1 = p.technology) with
        | some _ => l.map (fun g => if g.1 = p.technology then (g.1, g.2 + 1) else g)
        | none => l ++ [(p.technology, 1)]
      bump acc)
    []

/-- The JOIN of an inventory row with its branch row. -/
def branchOf (db : ChatDB) (i : ChatInvRow) : Option ChatBranchRow :=
  db.branches.find? (fun b => b.id = i.branchId)

/-- The JOIN of an inventory row with its product row. -/
def productOf (db : ChatDB) (i : ChatInvRow) : Option ChatProdRow :=
  db.products.find? (fun p => p.id = i.productId)

/-- `SELECT SUM(avl_stock), SUM(billing) ... JOIN branches ... WHERE b.name = name`. -/
def branchStats (db : ChatDB) (name : String) : Option ℤ × Option ℤ :=
  let rows := db.inventory.filter (fun i => (branchOf db i).any (fun b => b.name = name))
  (sqlSum (rows.map (fun i => i.avlStock)), sqlSum (rows.map (fun i => i.billing)))

/-- The critical-alert query: zero stock with a positive plan, joined to the
product material, LIMIT 3. -/
def criticalAlerts (db : ChatDB) : List (String × ℤ) :=
  (((db.inventory.filter (fun i => i.avlStock = 0 ∧ i.monthPlan > 0)).filterMap
      (fun i => (productOf db i).map (fun p => (p.material, i.monthPlan)))).take 3)

/-- `SELECT p.material, SUM(i.billing) ... JOIN ... GROUP BY p.id ORDER BY
total_sales DESC LIMIT 3`. -/
def topSelling (db : ChatDB) : List (String × ℤ) :=
  let grouped := db.products.filterMap
    (fun p =>
      let rows := db.inventory.filter (fun i => i.productId = p.id)
      if rows.isEmpty then none
      else some (p.material, (rows.map (fun i => i.billing)).sum))
  (sortBy (fun a b => decide (b.2 ≤ a.2)) grouped).take 3

/-- `SELECT p.technology, COUNT(DISTINCT p.id), SUM(i.avl_stock) ... GROUP BY
p.technology` over the product-inventory join. -/
def techSummary (db : ChatDB) : List (String × ℕ × ℤ) :=
  db.products.foldl
    (fun acc p =>
      let rows := db.inventory.filter (fun i => i.productId = p.id)
      if rows.isEmpty then acc
      else
        let stock := (rows.map (fun i => i.avlStock)).sum
        match acc.find? (fun g => g.1 = p.technology) with
        | some _ =>
          acc.map (fun g =>
            if g.1 = p.technology then (g.1, g.2.1 + 1, g.2.2 + stock) else g)
        | none => acc ++ [(p.technology, 1, stock)])
    []

/-- The low-stock query: available below 20% of a positive plan, joined to
product and branch, ordered by the stock/plan ratio ascending, LIMIT 3. -/
def lowStock (db : ChatDB) : List (String × String × ℤ) :=
  let rows := db.inventory.filter
    (fun i => (i.avlStock : ℚ) < (i.monthPlan : ℚ) * (2/10) ∧ i.monthPlan > 0)
  let joined := rows.filterMap
    (fun i =>
      match productOf db i, branchOf db i with
      | some p, some b => some (((i.avlStock : ℚ) / (i.monthPlan : ℚ)), p.material, b.name, i.avlStock)
      | _, _ => none)
  ((sortBy (fun a b => decide (a.1 ≤ b.1)) joined).take 3).map (fun j => j.2)

/-- The greeting response. -/
def greetingMsg : String :=
  "Hello! I" ++ apo ++ "m the Hansei AI assistant. How can I help you with the sales data today?"

/-- The help response (a fixed template). -/
def helpMsg : String :=
  "You can ask me things like:\n- What is the total stock?\n- How many products are there?\n- Tell me about branch performance\n- What are the critical alerts?\n- Show me the top selling products\n- What" ++ apo ++ "s the plan achievement rate?"

/-- The about-Hansei response. -/
def hanseiMsg : String :=
  "I am an AI assistant for the Hansei Intelligence Portal. I can help you analyze sales data, check inventory levels, and provide insights about branch performance. I have access to real-time data across all branches and products."

/-- The default response for an unmatched message. -/
def defaultMsg : String :=
  "I" ++ apo ++ "m not sure how to answer that. Please try asking about sales, stock, products, branches, or type \"help\" for a list of commands."

/-- The total-sales branch: one SUM query. -/
def totalSalesBranch (db : ChatDB) : String × List SqlTag :=
  let totalSales := numOr0 (sqlSum (db.inventory.map (fun i => i.billing)))
  ("The total sales billing across all branches is " ++ localeString totalSales
    ++ " units.", [.sumBillingQ])

/-- The total-stock branch: one SUM query. -/
def totalStockBranch (db : ChatDB) : String × List SqlTag :=
  let totalStock := numOr0 (sqlSum (db.inventory.map (fun i => i.avlStock)))
  ("The total available stock across all branches is " ++ localeString totalStock
    ++ " units.", [.sumAvlStockQ])

/-- The product-count branch: a COUNT query and a GROUP BY query. -/
def productsBranch (db : ChatDB) : String × List SqlTag :=
  let productCount := db.products.length
  let techBreakdown := String.intercalate ", "
    ((techGroups db.products).map (fun t => toString t.2 ++ " " ++ t.1))
  ("We are tracking " ++ toString productCount ++ " different product models: "
    ++ techBreakdown ++ ".", [.countProductsQ, .techGroupQ])

/-- The branch-list branch: one ORDER BY name query. -/
def branchesBranch (db : ChatDB) : String × List SqlTag :=
  let names := sortBy (fun a b => decide (a ≤ b)) (db.branches.map (fun b => b.name))
  ("We are monitoring " ++ toString names.length ++ " branches: "
    ++ String.intercalate ", " names ++ ". Which branch are you interested in?",
   [.branchNamesQ])

/-- The per-city stats branch (Chennai and Bangalore use the same shape). -/
def cityBranch (db : ChatDB) (city : String) : String × List SqlTag :=
  let s := branchStats db city
  (city ++ " currently has " ++ numOrNaN s.1
    ++ " units in stock and has achieved " ++ numOrNaN s.2 ++ " units in sales.",
   [.branchStatsQ city])

/-- The critical-alerts branch. -/
def criticalBranch (db : ChatDB) : String × List SqlTag :=
  let rows := criticalAlerts db
  (if rows.length > 0 then
      "Yes, there are " ++ toString rows.length ++ " critical stock-out alerts for: "
        ++ String.intercalate ", "
          (rows.map (fun a => a.1 ++ " (plan: " ++ toString a.2 ++ ")"))
    else "Good news! There are currently no critical stock alerts.",
   [.criticalAlertsQ])

/-- The plan-achievement branch. -/
def planBranch (db : ChatDB) : String × List SqlTag :=
  let billing := numOr0 (sqlSum (db.inventory.map (fun i => i.billing)))
  let plan := numOr0 (sqlSum (db.inventory.map (fun i => i.monthPlan)))
  let achievement := if plan > 0 then Js.round (((billing : ℚ) / (plan : ℚ)) * 100) else 0
  ("The overall plan achievement rate is " ++ toString achievement
    ++ "%. Total billing: " ++ localeString billing
    ++ " units against a plan of " ++ localeString plan ++ " units.",
   [.planTotalsQ])

/-- The top-selling branch. -/
def topSellingBranch (db : ChatDB) : String × List SqlTag :=
  ("The top 3 selling products are: "
    ++ String.intercalate ", "
      ((topSelling db).map (fun p => p.1 ++ " (" ++ localeString p.2 ++ " units)")),
   [.topSellingQ])

/-- The technology-breakdown branch. -/
def techBranch (db : ChatDB) : String × List SqlTag :=
  ("Technology breakdown - "
    ++ String.intercalate ". "
      ((techSummary db).map
        (fun t => t.1 ++ ": " ++ toString t.2.1 ++ " products with "
          ++ localeString t.2.2 ++ " units")),
   [.techSummaryQ])

/-- The low-stock branch. -/
def lowStockBranch (db : ChatDB) : String × List SqlTag :=
  let rows := lowStock db
  (if rows.length > 0 then
      "Low stock alerts: "
        ++ String.intercalate ", "
          (rows.map (fun s => s.1 ++ " at " ++ s.2.1 ++ " (only " ++ toString s.2.2 ++ " units)"))
        ++ ". These products need immediate restocking."
    else "All products have adequate stock levels.",
   [.lowStockQ])

/-- The body of `processQuery`: the source's sequence of early-return
substring tests on the (already lowercased) message, each returning its
branch response and the SQL statements that branch executed. -/
def processQuery (query : String) (db : ChatDB) : String × List SqlTag :=
  if Js.includes query "hello" || Js.includes query "hi" then (greetingMsg, [])
  else if Js.includes query "help" || Js.includes query "command" then (helpMsg, [])
  else if Js.includes query "total sales" || Js.includes query "revenue" then
    totalSalesBranch db
  else if Js.includes query "total stock" || Js.includes query "inventory" then
    totalStockBranch db
  else if Js.includes query "products" || Js.includes query "models" then
    productsBranch db
  else if Js.includes query "branch" || Js.includes query "cities" then
    branchesBranch db
  else if Js.includes query "chennai" then cityBranch db "Chennai"
  else if Js.includes query "bangalore" then cityBranch db "Bangalore"
  else if Js.includes query "critical" || Js.includes query "alert" then
    criticalBranch db
  else if Js.includes query "plan achievement" || Js.includes query "performance" then
    planBranch db
  else if Js.includes query "top selling" || Js.includes query "best selling" then
    topSellingBranch db
  else if Js.includes query "inverter" || Js.includes query "technology" then
    techBranch db
  else if Js.includes query "low stock" || Js.includes query "shortage" then
    lowStockBranch db
  else if Js.includes query "hansei" || Js.includes query "who are you" then
    (hanseiMsg, [])
  else (defaultMsg, [])

/-- One rule of the flat decision list the specification describes. -/
structure ChatRule where
  applies : String → Bool
  action : ChatDB → String × List SqlTag

/-- The chatbot as a decision list: the predicates and actions of
`processQuery` in source order. -/
def chatRules : List ChatRule :=
  [⟨fun q => Js.includes q "hello" || Js.includes q "hi", fun _ => (greetingMsg, [])⟩,
   ⟨fun q => Js.includes q "help" || Js.includes q "command", fun _ => (helpMsg, [])⟩,
   ⟨fun q => Js.includes q "total sales" || Js.includes q "revenue", totalSalesBranch⟩,
   ⟨fun q => Js.includes q "total stock" || Js.includes q "inventory", totalStockBranch⟩,
   ⟨fun q => Js.includes q "products" || Js.includes q "models", productsBranch⟩,
   ⟨fun q => Js.includes q "branch" || Js.includes q "cities", branchesBranch⟩,
   ⟨fun q => Js.includes q "chennai", fun db => cityBranch db "Chennai"⟩,
   ⟨fun q => Js.includes q "bangalore", fun db => cityBranch db "Bangalore"⟩,
   ⟨fun q => Js.includes q "critical" || Js.includes q "alert", criticalBranch⟩,
   ⟨fun q => Js.includes q "plan achievement" || Js.includes q "performance", planBranch⟩,
   ⟨fun q => Js.includes q "top selling" || Js.includes q "best selling", topSellingBranch⟩,
   ⟨fun q => Js.includes q "inverter" || Js.includes q "technology", techBranch⟩,
   ⟨fun q => Js.includes q "low stock" || Js.includes q "shortage", lowStockBranch⟩,
   ⟨fun q => Js.includes q "hansei" || Js.includes q "who are you", fun _ => (hanseiMsg, [])⟩]

/-- Evaluate a decision list: the first matching rule answers; no match gives
the fixed default with no queries. -/
def evalRules (rules : List ChatRule) (q : String) (db : ChatDB) :
    String × List SqlTag :=
  match rules with
  | [] => (defaultMsg, [])
  | r :: rest => if r.applies q then r.action db else evalRules rest q db

/-- The route handler `router.post('/query')` around `processQuery`: a falsy
message is a 400, otherwise the message is lowercased and answered. -/
inductive ChatRouteRes where
  | badRequest
  | answered (response : String) (queries : List SqlTag)
deriving DecidableEq, Repr

/-- The chat route on a request body. -/
def chatQueryRoute (message : Option String) (db : ChatDB) : ChatRouteRes :=
  if Js.truthyStr message then
    match message with
    | some m =>
      let r := processQuery m.toLower db
      .answered r.1 r.2
    | none => .badRequest
  else .badRequest

end Chatbot

/-! Characterization helpers used by the idempotence analysis (C2): which
inventory key a direct-inventory row writes, and the last write to a key. -/

namespace Upload

/-- The last value written to inventory key `k` by a row list (later rows
win). -/
def lastExcelWrite (P : String → Option Model.ProductRec)
    (B : String → Option Model.BranchRec) : List Row → ℕ × ℕ → Option Model.InvRec
  | [], _ => none
  | r :: t, k =>
    match lastExcelWrite P B t k with
    | some v => some v
    | none => if excelTarget r P B = some k then some (rowInvVals r) else none

end Upload

namespace UploadV2

/-- The guard of one `processProductData` row: the statement succeeds exactly
when the material and technology chains are defined and star and price parse. -/
def guardsOK (row : Row) : Bool :=
  row.material.isSome && row.technology.isSome && row.star.isSome && row.price.isSome

/-- The writes of `processProductData` as a total function (each row upserts
until a guard fails). -/
def applyProductRows : List Row → Model.DB → Model.DB
  | [], db => db
  | row :: rest, db =>
    match row.material, row.technology, row.star, row.price with
    | some m, some tech, some star, some price =>
      applyProductRows rest (productSet db m row tech star price)
    | _, _, _, _ => db

/-- The last write of a row list to the product keyed `m` (the row and its
parsed technology, star and price). -/
def lastProdVals : List Row → String → Option (Row × String × ℤ × ℤ)
  | [], _ => none
  | r :: t, m =>
    match lastProdVals t m with
    | some x => some x
    | none =>
      match r.material, r.technology, r.star, r.price with
      | some mr, some tech, some star, some price =>
        if mr = m then some (r, tech, star, price) else none
      | _, _, _, _ => none

end UploadV2

/-- First row of the C7 witness dataset (code A, the attribute source). -/
def c7rowA : Row :=
  { Row.blank with
    itemCode := some "A"
    branch := some "Chennai"
    tonnage := some 2
    star := some 5
    technology := some "X"
    salesQty := some 4 }

/-- Second row of the C7 witness dataset (code A again, other attributes). -/
def c7rowB : Row :=
  { Row.blank with
    itemCode := some "A"
    branch := some "Delhi"
    tonnage := some 9
    star := some 1
    salesQty := some 3 }

/-- A one-row product dataset for the C2 witness. -/
def c2prodRow : Row :=
  { Row.blank with
    material := some "M"
    technology := some "T"
    star := some 3
    price := some 100 }

/-- The one-row sales dataset of the C2 counterexample. -/
def c2row : Row :=
  { Row.blank with itemCode := some "A", branch := some "Chennai", salesQty := some 10 }

/-- First row of the C6 counterexample: an item code containing a hyphen. -/
def c6rowA : Row :=
  { Row.blank with itemCode := some "A-B", branch := some "C", salesQty := some 1 }

/-- Second row of the C6 counterexample: its key A-B-C collides with the
first row's. -/
def c6rowB : Row :=
  { Row.blank with itemCode := some "A", branch := some "B-C", salesQty := some 2 }

/-- The one-row hyphen-free dataset of the C6 witness. -/
def c6okRow : Row :=
  { Row.blank with itemCode := some "A", branch := some "B", salesQty := some 2 }

/-! Theorems. Helper lemmas come first, then one theorem per claim (with a
witness where the theorem carries hypotheses). -/

/-- String extensionality helper: rebuilding a string from its characters is
the identity. -/
theorem strMk_data (s : String) : String.mk s.data = s := by
  cases s
  rfl

/-- Character list of an appended string. -/
theorem strData_append (s t : String) : (s ++ t).data = s.data ++ t.data := by
  cases s
  cases t
  rfl

/-- One unfolding of `splitOnChar` at a non-separator head. -/
theorem splitOnChar_cons_ne (sep a : Char) (t : List Char) (ha : a ≠ sep) :
    Js.splitOnChar sep (a :: t) =
      match Js.splitOnChar sep t with
      | [] => [[a]]
      | h :: rest => (a :: h) :: rest := by
  simp [Js.splitOnChar, ha]

/-- One unfolding of `splitOnChar` at the separator. -/
theorem splitOnChar_cons_eq (sep : Char) (t : List Char) :
    Js.splitOnChar sep (sep :: t) = [] :: Js.splitOnChar sep t := by
  simp [Js.splitOnChar]

/-- Splitting at the first separator: a separator-free chunk comes off whole. -/
theorem splitOnChar_append (sep : Char) (c rest : List Char) (hc : sep ∉ c) :
    Js.splitOnChar sep (c ++ sep :: rest) = c :: Js.splitOnChar sep rest := by
  induction c with
  | nil => simp [Js.splitOnChar]
  | cons a c ih =>
    have ha : a ≠ sep := fun h => hc (h ▸ List.mem_cons_self a c)
    have hc' : sep ∉ c := fun h => hc (List.mem_cons_of_mem a h)
    rw [List.cons_append, splitOnChar_cons_ne sep a _ ha, ih hc']

/-- Splitting a separator-free list yields the single chunk. -/
theorem splitOnChar_of_not_mem (sep : Char) (c : List Char) (hc : sep ∉ c) :
    Js.splitOnChar sep c = [c] := by
  induction c with
  | nil => rfl
  | cons a c ih =>
    have ha : a ≠ sep := fun h => hc (h ▸ List.mem_cons_self a c)
    have hc' : sep ∉ c := fun h => hc (List.mem_cons_of_mem a h)
    rw [splitOnChar_cons_ne sep a _ ha, ih hc']

/-- C8 helper: the split of an encoded key whose item code is hyphen-free. -/
theorem splitDash_makeKey (code branch : String) (hc : '-' ∉ code.data) :
    Js.splitDash (Upload.makeKey code branch) =
      code :: (Js.splitOnChar '-' branch.data).map String.mk := by
  have hdata : (Upload.makeKey code branch).data = code.data ++ '-' :: branch.data := by
    show (code ++ "-" ++ branch).data = _
    rw [strData_append, strData_append]
    simp
  unfold Js.splitDash
  rw [hdata, splitOnChar_append '-' code.data branch.data hc]
  simp [strMk_data]

/-- C8: the sales-upload aggregation key round-trips through encode and
split-decode exactly when the encoded pair is hyphen-free: for every item
code and branch name containing no hyphen, decoding recovers the pair, and
the hyphen-free precondition is necessary — the concrete code "A-B" with
branch "C" decodes to a different pair. -/
theorem aggregation_key_roundtrip :
    (∀ code branch : String, '-' ∉ code.data → '-' ∉ branch.data →
      Upload.decodeKey (Upload.makeKey code branch) = (some code, some branch))
    ∧ Upload.decodeKey (Upload.makeKey "A-B" "C") ≠ (some "A-B", some "C") := by
  constructor
  · intro code branch hc hb
    unfold Upload.decodeKey
    rw [splitDash_makeKey code branch hc, splitOnChar_of_not_mem '-' branch.data hb]
    simp [strMk_data]
  · decide

/-- C8 witness: the round-trip at the concrete hyphen-free pair ("AAA", "B C"). -/
theorem aggregation_key_roundtrip_check :
    Upload.decodeKey (Upload.makeKey "AAA" "B C") = (some "AAA", some "B C") :=
  aggregation_key_roundtrip.1 "AAA" "B C" (by decide) (by decide)

/-- C5: for a request carrying a token, `authenticateToken` performs one JWT
verification with exactly two error branches — expired is 401, otherwise
invalid is 403 — and on success attaches the decoded payload and passes
control on; with no token the request is rejected 401. -/
theorem authenticateToken_branches (verify : String → Mw.VerifyResult)
    (h : Option String) :
    (Mw.tokenOf h = none →
      Mw.authenticateToken verify h =
        .reject 401 "Unauthorized: No token provided")
    ∧ (∀ t, Mw.tokenOf h = some t →
        (verify t = .expired →
          Mw.authenticateToken verify h =
            .reject 401 "Unauthorized: Token has expired.")
        ∧ (verify t = .invalid →
          Mw.authenticateToken verify h = .reject 403 "Forbidden: Invalid token.")
        ∧ (∀ u, verify t = .ok u →
          Mw.authenticateToken verify h = .proceed u)) := by
  refine ⟨fun h0 => ?_, fun t ht => ⟨fun hv => ?_, fun hv => ?_, fun u hv => ?_⟩⟩
  all_goals simp [Mw.authenticateToken, *]

/-- C5 witness: the four branches at concrete requests. -/
theorem authenticateToken_branches_check :
    Mw.authenticateToken (fun _ => .expired) (some "Bearer t") =
      .reject 401 "Unauthorized: Token has expired."
    ∧ Mw.authenticateToken (fun _ => .invalid) (some "Bearer t") =
      .reject 403 "Forbidden: Invalid token."
    ∧ Mw.authenticateToken (fun _ => .ok ⟨1, "smart", "smart_user", "Smart User"⟩)
        (some "Bearer t") = .proceed ⟨1, "smart", "smart_user", "Smart User"⟩
    ∧ Mw.authenticateToken (fun _ => .invalid) none =
      .reject 401 "Unauthorized: No token provided" :=
  ⟨((authenticateToken_branches _ _).2 "t" (by decide)).1 rfl,
   ((authenticateToken_branches _ _).2 "t" (by decide)).2.1 rfl,
   ((authenticateToken_branches _ _).2 "t" (by decide)).2.2 _ rfl,
   (authenticateToken_branches _ _).1 rfl⟩

/-- C3: on the upload endpoint guard chain, a valid token whose role is not
the privileged role smart_user is answered 403 and the handler body never
runs; a smart_user token passes the role check and the handler runs. -/
theorem uploadGate_role_check (verify : String → Mw.VerifyResult)
    (h : Option String) (t : String) (u : Mw.JwtPayload)
    (ht : Mw.tokenOf h = some t) (hv : verify t = .ok u) :
    (u.role ≠ "smart_user" →
      Mw.uploadGate verify h =
        .errorResponse 403 "Forbidden: You do not have the required permissions.")
    ∧ (u.role = "smart_user" → Mw.uploadGate verify h = .handlerRan u) := by
  constructor <;> intro hr <;>
    simp [Mw.uploadGate, Mw.authenticateToken, Mw.authorizeRole, ht, hv, hr]

/-- C3 witness: both outcomes at concrete tokens. -/
theorem uploadGate_role_check_check :
    Mw.uploadGate (fun _ => .ok ⟨2, "normal", "normal_user", "Normal User"⟩)
        (some "Bearer t") =
      .errorResponse 403 "Forbidden: You do not have the required permissions."
    ∧ Mw.uploadGate (fun _ => .ok ⟨1, "smart", "smart_user", "Smart User"⟩)
        (some "Bearer t") =
      .handlerRan ⟨1, "smart", "smart_user", "Smart User"⟩ :=
  ⟨(uploadGate_role_check _ _ "t" _ (by decide) rfl).1 (by decide),
   (uploadGate_role_check _ _ "t" _ (by decide) rfl).2 rfl⟩

/-- C9 helper: every listed failure cause produces the shared 401 body. -/
theorem loginHandler_listed_failure (findUser : String → Option String)
    (compare : String → String → Bool) (r : Login.LoginReq)
    (h : Login.listedFailure findUser compare r) :
    Login.loginHandler findUser compare r = Login.invalidCredentials := by
  rcases h with hh | ⟨hh, username, password, hu, hp, hun, hpn, cause⟩
  · simp [Login.loginHandler, hh]
  · have hu' : Js.truthyStr r.username = true := by simp [hu, Js.truthyStr, hun]
    have hp' : Js.truthyStr r.password = true := by simp [hp, Js.truthyStr, hpn]
    rcases cause with hnone | ⟨hash, hhash, hcmp⟩
    · simp [Login.loginHandler, hh, hu, hp, Js.truthyStr, hun, hpn, hnone]
    · simp [Login.loginHandler, hh, hu, hp, Js.truthyStr, hun, hpn, hhash, hcmp]

/-- C9: every login request failing by the honeypot, an unknown username or
a wrong password gets the identical response — HTTP 401 with body error
"Invalid username or password" — so two failing runs differing only in the
cause produce equal responses. -/
theorem login_failure_indistinguishable (findUser : String → Option String)
    (compare : String → String → Bool) (r1 r2 : Login.LoginReq)
    (h1 : Login.listedFailure findUser compare r1)
    (h2 : Login.listedFailure findUser compare r2) :
    Login.loginHandler findUser compare r1 =
        Login.LoginRes.failure 401 "Invalid username or password"
    ∧ Login.loginHandler findUser compare r1 =
        Login.loginHandler findUser compare r2 := by
  have e1 := loginHandler_listed_failure findUser compare r1 h1
  have e2 := loginHandler_listed_failure findUser compare r2 h2
  exact ⟨e1, e1.trans e2.symm⟩

/-- C9 witness: a honeypot hit and a wrong-password attempt at a concrete
one-user table produce the same concrete 401 response. -/
theorem login_failure_indistinguishable_check :
    Login.loginHandler (fun u => if u = "smart" then some "h1" else none)
        (fun _ _ => false) ⟨some "bot", some "x", some "filled"⟩ =
      Login.LoginRes.failure 401 "Invalid username or password"
    ∧ Login.loginHandler (fun u => if u = "smart" then some "h1" else none)
        (fun _ _ => false) ⟨some "bot", some "x", some "filled"⟩ =
      Login.loginHandler (fun u => if u = "smart" then some "h1" else none)
        (fun _ _ => false) ⟨some "smart", some "wrong", none⟩ :=
  login_failure_indistinguishable _ _ _ _
    (Or.inl (by decide))
    (Or.inr (by
      refine ⟨by decide, "smart", "wrong", rfl, rfl, by decide, by decide, ?_⟩
      exact Or.inr ⟨"h1", by decide, rfl⟩))

/-- C10: on PUT /inventory/:productId/:branchId by a smart_user, every
request field that is null keeps the previous column value through COALESCE,
only the row keyed (productId, branchId) changes (no other inventory row and
no other table), and when no such row exists the response is 404 with the
database unchanged. -/
theorem putInventory_frame (u : Mw.JwtPayload) (pid bid : ℕ)
    (body : SalesRoute.UpdateBody) (db : Model.DB)
    (hrole : u.role = "smart_user") :
    (∀ old, db.inventory (pid, bid) = some old →
      (SalesRoute.putInventory u pid bid body db).2 =
          .updated (SalesRoute.coalesceRow body old)
        ∧ (SalesRoute.putInventory u pid bid body db).1.inventory (pid, bid) =
          some (SalesRoute.coalesceRow body old)
        ∧ (body.opStock = none →
            (SalesRoute.coalesceRow body old).opStock = old.opStock)
        ∧ (body.avlStock = none →
            (SalesRoute.coalesceRow body old).avlStock = old.avlStock)
        ∧ (body.transit = none →
            (SalesRoute.coalesceRow body old).transit = old.transit)
        ∧ (body.billing = none →
            (SalesRoute.coalesceRow body old).billing = old.billing)
        ∧ (body.monthPlan = none →
            (SalesRoute.coalesceRow body old).monthPlan = old.monthPlan)
        ∧ (∀ k, k ≠ (pid, bid) →
            (SalesRoute.putInventory u pid bid body db).1.inventory k =
              db.inventory k)
        ∧ (SalesRoute.putInventory u pid bid body db).1.users = db.users
        ∧ (SalesRoute.putInventory u pid bid body db).1.products = db.products
        ∧ (SalesRoute.putInventory u pid bid body db).1.branches = db.branches)
    ∧ (db.inventory (pid, bid) = none →
        SalesRoute.putInventory u pid bid body db = (db, .notFound)
        ∧ SalesRoute.PutRes.status
            (SalesRoute.putInventory u pid bid body db).2 = 404) := by
  constructor
  · intro old hold
    refine ⟨?_, ?_, ?_, ?_, ?_, ?_, ?_, ?_, ?_, ?_, ?_⟩
    · simp [SalesRoute.putInventory, hrole, hold]
    · simp [SalesRoute.putInventory, hrole, hold]
    · intro h0; simp [SalesRoute.coalesceRow, h0]
    · intro h0; simp [SalesRoute.coalesceRow, h0]
    · intro h0; simp [SalesRoute.coalesceRow, h0]
    · intro h0; simp [SalesRoute.coalesceRow, h0]
    · intro h0; simp [SalesRoute.coalesceRow, h0]
    · intro k hk; simp [SalesRoute.putInventory, hrole, hold, hk]
    · simp [SalesRoute.putInventory, hrole, hold]
    · simp [SalesRoute.putInventory, hrole, hold]
    · simp [SalesRoute.putInventory, hrole, hold]
  · intro hnone
    constructor <;> simp [SalesRoute.putInventory, hrole, hnone, SalesRoute.PutRes.status]

/-- C10 witness: a concrete partial update (only billing present) keeps the
other four columns, leaves a second row untouched, and a missing row gives a
404 with nothing changed. -/
theorem putInventory_frame_check :
    (SalesRoute.putInventory ⟨1, "smart", "smart_user", "Smart User"⟩ 1 1
        ⟨none, none, none, some 99, none⟩
        { Model.emptyDB with
          inventory := fun k => if k = (1, 1) then some ⟨1, 2, 3, 4, 5⟩ else none }).1.inventory
      (1, 1) = some ⟨1, 2, 3, 99, 5⟩
    ∧ (SalesRoute.putInventory ⟨1, "smart", "smart_user", "Smart User"⟩ 1 1
        ⟨none, none, none, some 99, none⟩
        { Model.emptyDB with
          inventory := fun k => if k = (1, 1) then some ⟨1, 2, 3, 4, 5⟩ else none }).1.inventory
      (2, 1) = none
    ∧ SalesRoute.PutRes.status
        (SalesRoute.putInventory ⟨1, "smart", "smart_user", "Smart User"⟩ 7 7
          ⟨none, none, none, some 99, none⟩ Model.emptyDB).2 = 404 := by
  refine ⟨?_, ?_, ?_⟩
  · exact ((putInventory_frame _ 1 1 _ _ rfl).1 ⟨1, 2, 3, 4, 5⟩ (by decide)).2.1
  · exact ((putInventory_frame _ 1 1 _ _ rfl).1 ⟨1, 2, 3, 4, 5⟩ (by decide)).2.2.2.2.2.2.2.1
      (2, 1) (by decide)
  · exact ((putInventory_frame _ 7 7 _ _ rfl).2 rfl).2

/-- C1 counterexample: `importExcelData` is not atomic. With an empty
spreadsheet and a failure injected at its second statement (the default-user
insert), the run reports the error, but the TRUNCATE issued by its first
statement has already destroyed the pre-existing user row and is not undone. -/
theorem importExcelData_not_atomic :
    (ImportXlsx.importExcelData [] "h1" "h2" (fun _ => 0) (some 1)
        { Model.emptyDB with users := [⟨"u", "p", "U", "normal_user"⟩] }).2 = false
    ∧ (ImportXlsx.importExcelData [] "h1" "h2" (fun _ => 0) (some 1)
        { Model.emptyDB with users := [⟨"u", "p", "U", "normal_user"⟩] }).1.users
      ≠ [⟨"u", "p", "U", "normal_user"⟩] := by
  constructor
  · rfl
  · decide

/-- A rolled-back transaction leaves the database untouched. -/
theorem runTransaction_keeps_db (steps : List (Model.DB → Model.DB))
    (failAt : Option ℕ) (db : Model.DB)
    (h : (Model.runTransaction steps failAt db).2 = false) :
    (Model.runTransaction steps failAt db).1 = db := by
  unfold Model.runTransaction at h ⊢
  revert h
  rcases Model.execSteps steps failAt db with ⟨db2, ok⟩
  cases ok
  · intro _
    rfl
  · intro h
    exact Bool.noConfusion h

/-- C1 amended: the imports that run inside a database transaction — the
upload route and the CSV import script — are atomic: whenever a statement
fails, every write of the run is rolled back, the database is exactly as
before the run, and the error propagates (HTTP 500 from the route, a rethrow
from the script); the Excel import script issues its writes with no
transaction, so its completed statements survive a later failure. -/
theorem import_transactional_rollback (data : List Row) (h1 h2 : String)
    (randB randI : ℕ → ℚ) (failAt : Option ℕ) (db : Model.DB) :
    ((Upload.uploadRoute data failAt db).2 = 500 →
      (Upload.uploadRoute data failAt db).1 = db)
    ∧ ((ImportCsv.importCSVScriptRun data h1 h2 randB randI failAt db).2 = false →
      (ImportCsv.importCSVScriptRun data h1 h2 randB randI failAt db).1 = db) := by
  constructor
  · unfold Upload.uploadRoute
    rcases h : Model.runTransaction (Upload.csvSalesSteps data) failAt db with ⟨db2, ok⟩
    cases ok
    · intro _
      have h2 := runTransaction_keeps_db (Upload.csvSalesSteps data) failAt db (by rw [h])
      rw [h] at h2
      simpa using h2
    · intro hcontr
      simp at hcontr
  · unfold ImportCsv.importCSVScriptRun
    intro hfail
    exact runTransaction_keeps_db _ failAt db hfail

/-- C1 witness: a failing CSV upload of one row leaves the database exactly
as it was. -/
theorem import_transactional_rollback_check :
    (Upload.uploadRoute [{ Row.blank with branch := some "Chennai" }] (some 0)
        { Model.emptyDB with users := [⟨"u", "p", "U", "normal_user"⟩] }).1 =
      { Model.emptyDB with users := [⟨"u", "p", "U", "normal_user"⟩] } :=
  (import_transactional_rollback [{ Row.blank with branch := some "Chennai" }]
      "" "" (fun _ => 0) (fun _ => 0) (some 0)
      { Model.emptyDB with users := [⟨"u", "p", "U", "normal_user"⟩] }).1 (by decide)

/-- Aggregation of the C2 dataset. -/
theorem c2agg : Upload.aggregateSales [c2row] = [("A-Chennai", 10)] := by
  simp [Upload.aggregateSales, Upload.bumpKey, Upload.aggKey, Upload.makeKey, Js.orQ, Js.jsStr,
    c2row, Row.blank]

/-- Key decoding of the C2 dataset. -/
theorem c2dec : Upload.decodeKey "A-Chennai" = (some "A", some "Chennai") := by decide

/-- Branch collection of the C2 dataset. -/
theorem c2collectB : Upload.collectBranches [c2row] = ["Chennai"] := by decide

/-- Product collection of the C2 dataset. -/
theorem c2collectP : Upload.collectProducts [c2row] = [Upload.prodOfRow "A" c2row] := by
  simp [Upload.collectProducts, c2row, Row.blank]

/-- The collected product of the C2 dataset (note "Non Inv" contains "Inv",
so the inverter surcharge applies). -/
theorem c2price : Upload.prodOfRow "A" c2row = ⟨"A", 1, 3, "Non Inv", 48000⟩ := by
  unfold Upload.prodOfRow Upload.generateProductPrice
  norm_num [Js.orQ, Js.orZ, Js.orStrD, Js.orStr, Js.truthyStr, c2row, Row.blank, Js.round,
    show Js.includes "Non Inv" "Inv" = true from by decide]

/-- The simulated inventory record for a total of 10. -/
theorem c2rec : Upload.invRecOfTotal 10 = ⟨13, 5, 2, 10, 12⟩ := by
  unfold Upload.invRecOfTotal
  norm_num [Js.round]

/-- One run of the CSV sales processing on the C2 dataset. -/
theorem c2onceEval : (Upload.processCSVSalesData [c2row] Model.emptyDB).inventory (1, 1) =
    some ⟨13, 5, 2, 10, 12⟩ := by
  unfold Upload.processCSVSalesData
  rw [c2agg, c2collectB, c2collectP, c2price]
  simp [Upload.insertBranches, Upload.insertProducts, Model.insertBranchIfAbsent,
    Model.emptyDB, Upload.invWriteStep, c2dec, Upload.upsertInventoryAdd, c2rec]

/-- A second identical run doubles the inventory quantities. -/
theorem c2twiceEval : (Upload.processCSVSalesData [c2row]
    (Upload.processCSVSalesData [c2row] Model.emptyDB)).inventory (1, 1) =
    some ⟨26, 10, 4, 20, 24⟩ := by
  conv_lhs => rw [Upload.processCSVSalesData, c2agg, c2collectB, c2collectP, c2price]
  conv_lhs => rw [Upload.processCSVSalesData, c2agg, c2collectB, c2collectP, c2price]
  simp [Upload.insertBranches, Upload.insertProducts, Model.insertBranchIfAbsent,
    Model.emptyDB, Upload.invWriteStep, c2dec, Upload.upsertInventoryAdd, c2rec]

/-- C2 counterexample: the CSV sales upload path is not idempotent. On a
one-row file (item A, branch Chennai, quantity 10) the first run leaves an
inventory billing of 10, the second run adds instead of overwriting and
leaves 20, so the inventory table differs between one run and two. -/
theorem processCSVSalesData_not_idempotent :
    (Upload.processCSVSalesData [c2row]
        (Upload.processCSVSalesData [c2row] Model.emptyDB)).inventory (1, 1) ≠
      (Upload.processCSVSalesData [c2row] Model.emptyDB).inventory (1, 1)
    ∧ (Upload.processCSVSalesData [c2row]
        (Upload.processCSVSalesData [c2row] Model.emptyDB)).inventory (1, 1) =
      some ⟨26, 10, 4, 20, 24⟩
    ∧ (Upload.processCSVSalesData [c2row] Model.emptyDB).inventory (1, 1) =
      some ⟨13, 5, 2, 10, 12⟩ := by
  refine ⟨?_, c2twiceEval, c2onceEval⟩
  rw [c2twiceEval, c2onceEval]
  decide

theorem excelInvStep_frame (r : Row) (db : Model.DB) :
    (Upload.excelInvStep r db).products = db.products
    ∧ (Upload.excelInvStep r db).branches = db.branches
    ∧ (Upload.excelInvStep r db).users = db.users
    ∧ (Upload.excelInvStep r db).nextBranchId = db.nextBranchId
    ∧ (Upload.excelInvStep r db).nextProductId = db.nextProductId := by
  unfold Upload.excelInvStep
  cases h : Upload.excelTarget r db.products db.branches <;>
    simp [Upload.upsertInventorySet]

theorem excelInvStep_inventory (r : Row) (db : Model.DB) (k : ℕ × ℕ) :
    (Upload.excelInvStep r db).inventory k =
      if Upload.excelTarget r db.products db.branches = some k then
        some (Upload.rowInvVals r)
      else db.inventory k := by
  unfold Upload.excelInvStep
  cases h : Upload.excelTarget r db.products db.branches with
  | none => simp [h]
  | some k0 =>
    by_cases hk : k = k0
    · simp [h, hk, Upload.upsertInventorySet]
    · have hk' : k0 ≠ k := Ne.symm hk
      simp [h, hk, Upload.upsertInventorySet, hk']

theorem processExcel_cons (r : Row) (t : List Row) (db : Model.DB) :
    Upload.processExcelInventoryData (r :: t) db =
      Upload.processExcelInventoryData t (Upload.excelInvStep r db) := rfl

theorem processExcel_frame (data : List Row) (db : Model.DB) :
    (Upload.processExcelInventoryData data db).products = db.products
    ∧ (Upload.processExcelInventoryData data db).branches = db.branches
    ∧ (Upload.processExcelInventoryData data db).users = db.users
    ∧ (Upload.processExcelInventoryData data db).nextBranchId = db.nextBranchId
    ∧ (Upload.processExcelInventoryData data db).nextProductId = db.nextProductId := by
  induction data generalizing db with
  | nil => exact ⟨rfl, rfl, rfl, rfl, rfl⟩
  | cons r t ih =>
    rw [processExcel_cons]
    have hs := excelInvStep_frame r db
    have ht := ih (Upload.excelInvStep r db)
    exact ⟨ht.1.trans hs.1, ht.2.1.trans hs.2.1, ht.2.2.1.trans hs.2.2.1,
      ht.2.2.2.1.trans hs.2.2.2.1, ht.2.2.2.2.trans hs.2.2.2.2⟩

theorem processExcel_inventory (data : List Row) (db : Model.DB) (k : ℕ × ℕ) :
    (Upload.processExcelInventoryData data db).inventory k =
      match Upload.lastExcelWrite db.products db.branches data k with
      | some v => some v
      | none => db.inventory k := by
  induction data generalizing db with
  | nil => simp [Upload.processExcelInventoryData, Upload.lastExcelWrite]
  | cons r t ih =>
    rw [processExcel_cons, ih (Upload.excelInvStep r db)]
    have hs := excelInvStep_frame r db
    rw [hs.1, hs.2.1, excelInvStep_inventory]
    show (match Upload.lastExcelWrite db.products db.branches t k with
      | some v => some v
      | none => if Upload.excelTarget r db.products db.branches = some k then
          some (Upload.rowInvVals r) else db.inventory k) =
      match Upload.lastExcelWrite db.products db.branches (r :: t) k with
      | some v => some v
      | none => db.inventory k
    rw [show Upload.lastExcelWrite db.products db.branches (r :: t) k =
      (match Upload.lastExcelWrite db.products db.branches t k with
       | some v => some v
       | none => if Upload.excelTarget r db.products db.branches = some k then
           some (Upload.rowInvVals r) else none) from rfl]
    cases Upload.lastExcelWrite db.products db.branches t k <;>
      cases h : Upload.excelTarget r db.products db.branches <;> simp [h] <;>
      split <;> simp_all

theorem processExcel_idem (data : List Row) (db : Model.DB) :
    Upload.processExcelInventoryData data (Upload.processExcelInventoryData data db) =
      Upload.processExcelInventoryData data db := by
  have h1 := processExcel_frame data db
  have h2 := processExcel_frame data (Upload.processExcelInventoryData data db)
  apply Model.DB.ext
  · exact h2.2.2.1
  · exact h2.2.1
  · exact h2.1
  · funext k
    have e1 := processExcel_inventory data db k
    have e2 := processExcel_inventory data (Upload.processExcelInventoryData data db) k
    rw [h1.1, h1.2.1] at e2
    rw [e2, e1]
    cases hX : Upload.lastExcelWrite db.products db.branches data k <;> simp [hX]
  · exact h2.2.2.2.1
  · exact h2.2.2.2.2

theorem rowProdVals_id (id : ℕ) (row : Row) (tech : String) (star price : ℤ) :
    (UploadV2.rowProdVals id row tech star price).id = id := rfl

theorem processProductData_eq (data : List Row) (db : Model.DB) :
    UploadV2.processProductData data db =
      if data.all UploadV2.guardsOK then Except.ok (UploadV2.applyProductRows data db)
      else Except.error () := by
  induction data generalizing db with
  | nil => simp [UploadV2.processProductData, UploadV2.applyProductRows]
  | cons r t ih =>
    rcases hm : r.material with _ | m <;> rcases htc : r.technology with _ | tech <;>
      rcases hst : r.star with _ | star <;> rcases hpr : r.price with _ | price <;>
      simp [UploadV2.processProductData, UploadV2.applyProductRows, UploadV2.guardsOK,
        hm, htc, hst, hpr, ih]

theorem productSet_frame (db : Model.DB) (m : String) (row : Row) (tech : String)
    (star price : ℤ) :
    (UploadV2.productSet db m row tech star price).branches = db.branches
    ∧ (UploadV2.productSet db m row tech star price).users = db.users
    ∧ (UploadV2.productSet db m row tech star price).inventory = db.inventory
    ∧ (UploadV2.productSet db m row tech star price).nextBranchId = db.nextBranchId := by
  unfold UploadV2.productSet
  cases db.products m <;> simp

theorem productSet_products_self (db : Model.DB) (m : String) (row : Row) (tech : String)
    (star price : ℤ) :
    (UploadV2.productSet db m row tech star price).products m =
      some (UploadV2.rowProdVals
        (match db.products m with
         | some old => old.id
         | none => db.nextProductId) row tech star price) := by
  unfold UploadV2.productSet
  cases db.products m <;> simp

theorem productSet_products_other (db : Model.DB) (m : String) (row : Row) (tech : String)
    (star price : ℤ) (m' : String) (hne : m' ≠ m) :
    (UploadV2.productSet db m row tech star price).products m' = db.products m' := by
  unfold UploadV2.productSet
  cases db.products m <;> simp [hne]

theorem productSet_mono (db : Model.DB) (m : String) (row : Row) (tech : String)
    (star price : ℤ) (m2 : String) (h : (db.products m2).isSome) :
    ((UploadV2.productSet db m row tech star price).products m2).isSome := by
  by_cases hne : m2 = m
  · subst hne
    rw [productSet_products_self]
    rfl
  · rw [productSet_products_other db m row tech star price m2 hne]
    exact h

theorem productSet_counter (db : Model.DB) (m : String) (row : Row) (tech : String)
    (star price : ℤ) (h : (db.products m).isSome) :
    (UploadV2.productSet db m row tech star price).nextProductId = db.nextProductId := by
  unfold UploadV2.productSet
  cases hx : db.products m
  · rw [hx] at h
    exact Bool.noConfusion h
  · simp

theorem applyA_cons (r : Row) (t : List Row) (db : Model.DB) (m : String)
    (tech : String) (star price : ℤ) (hm : r.material = some m)
    (htc : r.technology = some tech) (hst : r.star = some star)
    (hpr : r.price = some price) :
    UploadV2.applyProductRows (r :: t) db =
      UploadV2.applyProductRows t (UploadV2.productSet db m r tech star price) := by
  simp [UploadV2.applyProductRows, hm, htc, hst, hpr]

theorem lastProdVals_cons (r : Row) (t : List Row) (m : String) :
    UploadV2.lastProdVals (r :: t) m =
      match UploadV2.lastProdVals t m with
      | some x => some x
      | none =>
        match r.material, r.technology, r.star, r.price with
        | some mr, some tech, some star, some price =>
          if mr = m then some (r, tech, star, price) else none
        | _, _, _, _ => none := rfl

theorem applyA_frame (data : List Row) :
    ∀ db : Model.DB,
      (UploadV2.applyProductRows data db).branches = db.branches
      ∧ (UploadV2.applyProductRows data db).users = db.users
      ∧ (UploadV2.applyProductRows data db).inventory = db.inventory
      ∧ (UploadV2.applyProductRows data db).nextBranchId = db.nextBranchId := by
  induction data with
  | nil => exact fun db => ⟨rfl, rfl, rfl, rfl⟩
  | cons r t ih =>
    intro db
    rcases hm : r.material with _ | m <;> rcases htc : r.technology with _ | tech <;>
      rcases hst : r.star with _ | star <;> rcases hpr : r.price with _ | price <;>
      simp [UploadV2.applyProductRows, hm, htc, hst, hpr]
    have hs := productSet_frame db m r tech star price
    have ht := ih (UploadV2.productSet db m r tech star price)
    exact ⟨ht.1.trans hs.1, ht.2.1.trans hs.2.1, ht.2.2.1.trans hs.2.2.1,
      ht.2.2.2.trans hs.2.2.2⟩

theorem applyA_products_some (data : List Row) :
    ∀ db : Model.DB, ∀ m : String, ∀ p, data.all UploadV2.guardsOK = true →
      db.products m = some p →
      (UploadV2.applyProductRows data db).products m =
        match UploadV2.lastProdVals data m with
        | none => some p
        | some x => some (UploadV2.rowProdVals p.id x.1 x.2.1 x.2.2.1 x.2.2.2) := by
  induction data with
  | nil => intro db m p _ hp; simpa [UploadV2.applyProductRows, UploadV2.lastProdVals]
  | cons r t ih =>
    intro db m p hall hp
    rw [List.all_cons, Bool.and_eq_true] at hall
    obtain ⟨hg, hallt⟩ := hall
    unfold UploadV2.guardsOK at hg
    simp only [Bool.and_eq_true, Option.isSome_iff_exists] at hg
    obtain ⟨⟨⟨⟨mr, hm⟩, tech, htc⟩, star, hst⟩, price, hpr⟩ := hg
    rw [applyA_cons r t db mr tech star price hm htc hst hpr]
    rw [lastProdVals_cons, hm, htc, hst, hpr]
    by_cases hmr : mr = m
    · subst hmr
      have hself := productSet_products_self db mr r tech star price
      rw [hp] at hself
      have := ih (UploadV2.productSet db mr r tech star price) mr
        (UploadV2.rowProdVals p.id r tech star price) hallt hself
      rw [this]
      cases UploadV2.lastProdVals t mr <;> simp [rowProdVals_id]
    · have hother := productSet_products_other db mr r tech star price m
        (fun h => hmr h.symm)
      rw [hp] at hother
      have := ih (UploadV2.productSet db mr r tech star price) m p hallt hother
      rw [this]
      cases UploadV2.lastProdVals t m <;> simp [hmr]

theorem applyA_products_none (data : List Row) :
    ∀ db : Model.DB, ∀ m : String, data.all UploadV2.guardsOK = true →
      db.products m = none →
      (UploadV2.lastProdVals data m = none →
        (UploadV2.applyProductRows data db).products m = none)
      ∧ (∀ x, UploadV2.lastProdVals data m = some x →
          ∃ pid, (UploadV2.applyProductRows data db).products m =
            some (UploadV2.rowProdVals pid x.1 x.2.1 x.2.2.1 x.2.2.2)) := by
  induction data with
  | nil =>
    intro db m _ hp
    exact ⟨fun _ => hp, fun x hx => absurd hx (by simp [UploadV2.lastProdVals])⟩
  | cons r t ih =>
    intro db m hall hp
    rw [List.all_cons, Bool.and_eq_true] at hall
    obtain ⟨hg, hallt⟩ := hall
    unfold UploadV2.guardsOK at hg
    simp only [Bool.and_eq_true, Option.isSome_iff_exists] at hg
    obtain ⟨⟨⟨⟨mr, hm⟩, tech, htc⟩, star, hst⟩, price, hpr⟩ := hg
    rw [applyA_cons r t db mr tech star price hm htc hst hpr]
    rw [lastProdVals_cons, hm, htc, hst, hpr]
    by_cases hmr : mr = m
    · subst hmr
      have hself := productSet_products_self db mr r tech star price
      rw [hp] at hself
      have hch := applyA_products_some t (UploadV2.productSet db mr r tech star price)
        mr (UploadV2.rowProdVals db.nextProductId r tech star price) hallt hself
      constructor
      · intro hnone
        cases hX : UploadV2.lastProdVals t mr <;> rw [hX] at hnone <;> simp at hnone
      · intro x hx
        cases hX : UploadV2.lastProdVals t mr
        · rw [hX] at hx
          simp at hx
          refine ⟨db.nextProductId, ?_⟩
          rw [hch, hX, ← hx]
        · rw [hX] at hx
          rw [Option.some_inj] at hx
          subst hx
          refine ⟨db.nextProductId, ?_⟩
          rw [hch, hX, rowProdVals_id]
    · have hother := productSet_products_other db mr r tech star price m
        (fun h => hmr h.symm)
      rw [hp] at hother
      have := ih (UploadV2.productSet db mr r tech star price) m hallt hother
      cases hX : UploadV2.lastProdVals t m
      · simp only [hX, hmr, if_false]
        exact ⟨fun _ => this.1 hX, fun x hx => by simp at hx⟩
      · simp only [hX]
        exact ⟨fun hc => Option.noConfusion hc, fun x hx => this.2 x (hX.trans hx)⟩

theorem lastProdVals_isSome_of_mem (data : List Row) (r : Row) (m : String)
    (hmem : r ∈ data) (hall : data.all UploadV2.guardsOK = true)
    (hm : r.material = some m) :
    (UploadV2.lastProdVals data m).isSome := by
  induction data with
  | nil => cases hmem
  | cons a t ih =>
    rw [List.all_cons, Bool.and_eq_true] at hall
    obtain ⟨hg, hallt⟩ := hall
    rw [lastProdVals_cons]
    cases hX : UploadV2.lastProdVals t m
    · rcases List.mem_cons.mp hmem with hr | hr
      · subst hr
        unfold UploadV2.guardsOK at hg
        simp only [Bool.and_eq_true, Option.isSome_iff_exists] at hg
        obtain ⟨⟨⟨_, tech, htc⟩, star, hst⟩, price, hpr⟩ := hg
        rw [hm, htc, hst, hpr]
        simp
      · have := ih hr hallt
        rw [hX] at this
        exact Bool.noConfusion this
    · simp

theorem applyA_counter (data : List Row) :
    ∀ db : Model.DB, data.all UploadV2.guardsOK = true →
      (∀ r ∈ data, ∀ m, r.material = some m → (db.products m).isSome) →
      (UploadV2.applyProductRows data db).nextProductId = db.nextProductId := by
  induction data with
  | nil => exact fun db _ _ => rfl
  | cons r t ih =>
    intro db hall hpres
    rw [List.all_cons, Bool.and_eq_true] at hall
    obtain ⟨hg, hallt⟩ := hall
    unfold UploadV2.guardsOK at hg
    simp only [Bool.and_eq_true, Option.isSome_iff_exists] at hg
    obtain ⟨⟨⟨⟨mr, hm⟩, tech, htc⟩, star, hst⟩, price, hpr⟩ := hg
    rw [applyA_cons r t db mr tech star price hm htc hst hpr]
    have hcnt := productSet_counter db mr r tech star price
      (hpres r (List.mem_cons_self r t) mr hm)
    rw [ih (UploadV2.productSet db mr r tech star price) hallt
      (fun r' hr' m' hm' =>
        productSet_mono db mr r tech star price m'
          (hpres r' (List.mem_cons_of_mem r hr') m' hm')),
      hcnt]

theorem processProductData_idem (data : List Row) (db db' : Model.DB)
    (h : UploadV2.processProductData data db = Except.ok db') :
    UploadV2.processProductData data db' = Except.ok db' := by
  rw [processProductData_eq] at h ⊢
  by_cases hall : data.all UploadV2.guardsOK
  · rw [if_pos hall] at h ⊢
    rw [Except.ok.injEq] at h ⊢
    subst h
    set Y := UploadV2.applyProductRows data db with hY
    have hpresY : ∀ r ∈ data, ∀ m, r.material = some m → (Y.products m).isSome := by
      intro r hr m hm
      have hlast := lastProdVals_isSome_of_mem data r m hr hall hm
      rw [Option.isSome_iff_exists] at hlast
      obtain ⟨x, hx⟩ := hlast
      cases hdb : db.products m with
      | some p =>
        rw [hY, applyA_products_some data db m p hall hdb, hx]
        rfl
      | none =>
        obtain ⟨pid, hpid⟩ := (applyA_products_none data db m hall hdb).2 x hx
        rw [hY, hpid]
        rfl
    apply Model.DB.ext
    · exact (applyA_frame data Y).2.1
    · exact (applyA_frame data Y).1
    · funext m
      cases hX : UploadV2.lastProdVals data m with
      | none =>
        cases hYm : Y.products m with
        | none => rw [(applyA_products_none data Y m hall hYm).1 hX]
        | some p => rw [applyA_products_some data Y m p hall hYm, hX]
      | some x =>
        cases hdb : db.products m with
        | some p =>
          have hYv : Y.products m = some (UploadV2.rowProdVals p.id x.1 x.2.1 x.2.2.1 x.2.2.2) := by
            rw [hY, applyA_products_some data db m p hall hdb, hX]
          rw [applyA_products_some data Y m _ hall hYv, hX, hYv, rowProdVals_id]
        | none =>
          obtain ⟨pid, hpid⟩ := (applyA_products_none data db m hall hdb).2 x hX
          rw [← hY] at hpid
          rw [applyA_products_some data Y m _ hall hpid, hX, hpid, rowProdVals_id]
    · exact (applyA_frame data Y).2.2.1
    · exact (applyA_frame data Y).2.2.2
    · exact applyA_counter data Y hall hpresY
  · rw [if_neg hall] at h
    exact Except.noConfusion h

/-- C2 amended: the overwrite-upsert import paths are idempotent — running
the direct-inventory upload processing twice leaves the database exactly as
one run, and likewise a successful product import re-run fixes the database —
but the CSV sales upload path is NOT idempotent: its inventory conflict
action accumulates instead of overwriting, so a second identical sales
upload doubles the aggregated quantities (see the counterexample). -/
theorem upsert_overwrite_idempotent :
    (∀ (data : List Row) (db : Model.DB),
      Upload.processExcelInventoryData data (Upload.processExcelInventoryData data db) =
        Upload.processExcelInventoryData data db)
    ∧ (∀ (data : List Row) (db db' : Model.DB),
        UploadV2.processProductData data db = Except.ok db' →
        UploadV2.processProductData data db' = Except.ok db') :=
  ⟨processExcel_idem, processProductData_idem⟩

/-- C2 witness: a successful one-row product import re-run at its own result
returns that result unchanged. -/
theorem upsert_overwrite_idempotent_check :
    UploadV2.processProductData [c2prodRow]
        (match UploadV2.processProductData [c2prodRow] Model.emptyDB with
          | Except.ok d => d
          | Except.error _ => Model.emptyDB) =
      Except.ok
        (match UploadV2.processProductData [c2prodRow] Model.emptyDB with
          | Except.ok d => d
          | Except.error _ => Model.emptyDB) :=
  upsert_overwrite_idempotent.2 _ Model.emptyDB _ (by rfl)

theorem evalRules_unmatched (rules : List Chatbot.ChatRule) (q : String)
    (db : Chatbot.ChatDB) (h : ∀ r ∈ rules, r.applies q = false) :
    Chatbot.evalRules rules q db = (Chatbot.defaultMsg, []) := by
  induction rules with
  | nil => rfl
  | cons r rest ih =>
    rw [Chatbot.evalRules, h r (List.mem_cons_self r rest)]
    exact ih (fun r' hr' => h r' (List.mem_cons_of_mem r hr'))

set_option maxHeartbeats 2000000 in
theorem chatbot_decision_list_eq (q : String) (db : Chatbot.ChatDB) :
    Chatbot.processQuery q db = Chatbot.evalRules Chatbot.chatRules q db := by
  simp only [Chatbot.chatRules, Chatbot.evalRules, Chatbot.processQuery]

theorem evalRules_len (rules : List Chatbot.ChatRule) (q : String)
    (db : Chatbot.ChatDB)
    (h : ∀ r ∈ rules, ∀ db2 : Chatbot.ChatDB, ((r.action db2).2).length ≤ 2) :
    ((Chatbot.evalRules rules q db).2).length ≤ 2 := by
  induction rules with
  | nil => simp [Chatbot.evalRules]
  | cons r rest ih =>
    rw [Chatbot.evalRules]
    by_cases hq : r.applies q
    · rw [if_pos hq]
      exact h r (List.mem_cons_self r rest) db
    · rw [if_neg hq]
      exact ih (fun r' hr' => h r' (List.mem_cons_of_mem r hr'))

set_option maxHeartbeats 2000000 in
theorem chatbot_two_queries_max (q : String) (db : Chatbot.ChatDB) :
    ((Chatbot.processQuery q db).2).length ≤ 2 := by
  rw [chatbot_decision_list_eq]
  refine evalRules_len Chatbot.chatRules q db ?_
  intro r hr db2
  simp only [Chatbot.chatRules, List.mem_cons, List.not_mem_nil, or_false] at hr
  rcases hr with rfl | rfl | rfl | rfl | rfl | rfl | rfl | rfl | rfl | rfl | rfl | rfl | rfl | rfl <;>
    simp [Chatbot.totalSalesBranch, Chatbot.totalStockBranch, Chatbot.productsBranch,
      Chatbot.branchesBranch, Chatbot.cityBranch, Chatbot.criticalBranch, Chatbot.planBranch,
      Chatbot.topSellingBranch, Chatbot.techBranch, Chatbot.lowStockBranch]

/-- C4 counterexample: the products/models branch of the chatbot issues two
SQL lookups (the COUNT and the GROUP BY breakdown), not at most one. -/
theorem chatbot_products_two_queries :
    ((Chatbot.processQuery "products" Chatbot.emptyChatDB).2).length = 2
    ∧ ¬ ((Chatbot.processQuery "products" Chatbot.emptyChatDB).2).length ≤ 1 := by
  decide

/-- C4 amended: the chat handler lowercases the message and evaluates the
fixed ordered decision list `chatRules`, answering with the first matching
rule; each matching branch issues at most TWO fixed SQL lookups (the
product-count branch issues two, every other branch at most one); a message
matching no rule receives the fixed default response and issues no query. -/
theorem chatbot_decision_list (q m : String) (db : Chatbot.ChatDB) :
    Chatbot.processQuery q db = Chatbot.evalRules Chatbot.chatRules q db
    ∧ (m ≠ "" → Chatbot.chatQueryRoute (some m) db =
        Chatbot.ChatRouteRes.answered (Chatbot.processQuery m.toLower db).1
          (Chatbot.processQuery m.toLower db).2)
    ∧ ((Chatbot.processQuery q db).2).length ≤ 2
    ∧ ((∀ r ∈ Chatbot.chatRules, r.applies q = false) →
        Chatbot.processQuery q db = (Chatbot.defaultMsg, [])) := by
  refine ⟨chatbot_decision_list_eq q db, ?_, chatbot_two_queries_max q db, ?_⟩
  · intro hm
    simp [Chatbot.chatQueryRoute, Js.truthyStr, hm]
  · intro hnone
    rw [chatbot_decision_list_eq q db]
    exact evalRules_unmatched Chatbot.chatRules q db hnone

/-- C4 witness: a truthy message goes through the lowercasing route, and the
concrete message "xyzzy" matches no rule and receives the default response
with no SQL issued. -/
theorem chatbot_decision_list_check :
    Chatbot.chatQueryRoute (some "hi") Chatbot.emptyChatDB =
      Chatbot.ChatRouteRes.answered
        (Chatbot.processQuery "hi".toLower Chatbot.emptyChatDB).1
        (Chatbot.processQuery "hi".toLower Chatbot.emptyChatDB).2
    ∧ Chatbot.processQuery "xyzzy" Chatbot.emptyChatDB = (Chatbot.defaultMsg, []) :=
  ⟨(chatbot_decision_list "xyzzy" "hi" Chatbot.emptyChatDB).2.1 (by decide),
   (chatbot_decision_list "xyzzy" "m" Chatbot.emptyChatDB).2.2.2 (by decide)⟩

theorem applySteps_append (s1 s2 : List (Model.DB → Model.DB)) (db : Model.DB) :
    Model.applySteps (s1 ++ s2) db = Model.applySteps s2 (Model.applySteps s1 db) := by
  unfold Model.applySteps
  exact List.foldl_append _ _ _ _

theorem applySteps_map_productStep (ps : List ImportCsv.ProdSpec) (db : Model.DB) :
    Model.applySteps (ps.map (fun p db => ImportCsv.productStep p db)) db =
      ImportCsv.insertProductsPhase ps db := by
  induction ps generalizing db with
  | nil => rfl
  | cons p t ih =>
    simp only [List.map_cons, Model.applySteps, List.foldl_cons] at *
    exact ih (ImportCsv.productStep p db)

theorem importSteps_run (data : List Row) (h1 h2 : String) (randB randI : ℕ → ℚ)
    (db : Model.DB) :
    Model.applySteps (ImportCsv.importSteps data h1 h2 randB randI) db =
      ImportCsv.importCSVSalesData data h1 h2 randB randI db := by
  unfold ImportCsv.importSteps ImportCsv.importCSVSalesData
  rw [applySteps_append, applySteps_append, applySteps_append,
    applySteps_map_productStep]
  rfl

theorem branchStep_frame (rand : ℕ → ℚ) (i : ℕ) (n : String) (db : Model.DB) :
    (ImportCsv.branchStep rand i n db).products = db.products
    ∧ (ImportCsv.branchStep rand i n db).users = db.users
    ∧ (ImportCsv.branchStep rand i n db).inventory = db.inventory
    ∧ (ImportCsv.branchStep rand i n db).nextProductId = db.nextProductId := by
  unfold ImportCsv.branchStep Model.insertBranchIfAbsent
  cases db.branches n <;> simp

theorem branchSteps_frame (rand : ℕ → ℚ) (names : List String) :
    ∀ (i : ℕ) (db : Model.DB),
      (Model.applySteps (ImportCsv.branchSteps rand i names) db).products = db.products
      ∧ (Model.applySteps (ImportCsv.branchSteps rand i names) db).users = db.users
      ∧ (Model.applySteps (ImportCsv.branchSteps rand i names) db).inventory = db.inventory
      ∧ (Model.applySteps (ImportCsv.branchSteps rand i names) db).nextProductId =
        db.nextProductId := by
  induction names with
  | nil => exact fun i db => ⟨rfl, rfl, rfl, rfl⟩
  | cons n t ih =>
    intro i db
    show (Model.applySteps (ImportCsv.branchSteps rand (i + 1) t)
        (ImportCsv.branchStep rand i n db)).products = db.products ∧ _ ∧ _ ∧ _
    have hs := branchStep_frame rand i n db
    have ht := ih (i + 1) (ImportCsv.branchStep rand i n db)
    exact ⟨ht.1.trans hs.1, ht.2.1.trans hs.2.1, ht.2.2.1.trans hs.2.2.1,
      ht.2.2.2.trans hs.2.2.2⟩

theorem csvProductStep_frame (p : ImportCsv.ProdSpec) (db : Model.DB) :
    (ImportCsv.productStep p db).branches = db.branches
    ∧ (ImportCsv.productStep p db).users = db.users
    ∧ (ImportCsv.productStep p db).inventory = db.inventory
    ∧ (ImportCsv.productStep p db).nextBranchId = db.nextBranchId := by
  unfold ImportCsv.productStep
  cases db.products p.material <;> simp

theorem csvProductsPhase_frame (ps : List ImportCsv.ProdSpec) :
    ∀ db : Model.DB,
      (ImportCsv.insertProductsPhase ps db).branches = db.branches
      ∧ (ImportCsv.insertProductsPhase ps db).users = db.users
      ∧ (ImportCsv.insertProductsPhase ps db).inventory = db.inventory
      ∧ (ImportCsv.insertProductsPhase ps db).nextBranchId = db.nextBranchId := by
  induction ps with
  | nil => exact fun db => ⟨rfl, rfl, rfl, rfl⟩
  | cons p t ih =>
    intro db
    show (ImportCsv.insertProductsPhase t (ImportCsv.productStep p db)).branches =
        db.branches ∧ _ ∧ _ ∧ _
    have hs := csvProductStep_frame p db
    have ht := ih (ImportCsv.productStep p db)
    exact ⟨ht.1.trans hs.1, ht.2.1.trans hs.2.1, ht.2.2.1.trans hs.2.2.1,
      ht.2.2.2.trans hs.2.2.2⟩

theorem csvInvStep_frame (rand : ℕ → ℚ) (i : ℕ) (e : ImportCsv.AggEntry) (db : Model.DB) :
    (ImportCsv.invStep rand i e db).products = db.products
    ∧ (ImportCsv.invStep rand i e db).branches = db.branches
    ∧ (ImportCsv.invStep rand i e db).users = db.users
    ∧ (ImportCsv.invStep rand i e db).nextBranchId = db.nextBranchId
    ∧ (ImportCsv.invStep rand i e db).nextProductId = db.nextProductId := by
  unfold ImportCsv.invStep
  cases db.products e.itemCode <;> cases db.branches e.branchName <;>
    simp [Upload.upsertInventorySet]
  split <;> simp

theorem csvInvSteps_frame (rand : ℕ → ℚ) (agg : List (String × ImportCsv.AggEntry)) :
    ∀ (i : ℕ) (db : Model.DB),
      (Model.applySteps (ImportCsv.invSteps rand i agg) db).products = db.products
      ∧ (Model.applySteps (ImportCsv.invSteps rand i agg) db).branches = db.branches
      ∧ (Model.applySteps (ImportCsv.invSteps rand i agg) db).users = db.users := by
  induction agg with
  | nil => exact fun i db => ⟨rfl, rfl, rfl⟩
  | cons x t ih =>
    intro i db
    show (Model.applySteps (ImportCsv.invSteps rand (i + 1) t)
        (ImportCsv.invStep rand i x.2 db)).products = db.products ∧ _ ∧ _
    have hs := csvInvStep_frame rand i x.2 db
    have ht := ih (i + 1) (ImportCsv.invStep rand i x.2 db)
    exact ⟨ht.1.trans hs.1, ht.2.1.trans hs.2.1, ht.2.2.trans hs.2.2.1⟩

theorem collect_present (data : List Row) (c : String) :
    ∀ acc : List ImportCsv.ProdSpec,
      acc.any (fun p => p.material = c) = true →
      ((data.foldl ImportCsv.collectStep acc).find? (fun p => decide (p.material = c)) =
        acc.find? (fun p => decide (p.material = c)))
      ∧ ((data.foldl ImportCsv.collectStep acc).countP (fun p => decide (p.material = c)) =
        acc.countP (fun p => decide (p.material = c))) := by
  induction data with
  | nil => exact fun acc _ => ⟨rfl, rfl⟩
  | cons r t ih =>
    intro acc hacc
    rw [List.foldl_cons]
    rcases hr : r.itemCode with _ | code
    · rw [show ImportCsv.collectStep acc r = acc by simp [ImportCsv.collectStep, hr]]
      exact ih acc hacc
    · by_cases h0 : code = ""
      · rw [show ImportCsv.collectStep acc r = acc by simp [ImportCsv.collectStep, hr, h0]]
        exact ih acc hacc
      · by_cases hany : acc.any (fun p => p.material = code)
        · rw [show ImportCsv.collectStep acc r = acc by
            simp [ImportCsv.collectStep, hr, h0, hany]]
          exact ih acc hacc
        · rw [show ImportCsv.collectStep acc r = acc ++ [ImportCsv.prodOfRow code r] by
            simp [ImportCsv.collectStep, hr, h0, hany]]
          have hcc : code ≠ c := by
            intro h
            subst h
            exact hany hacc
          have hacc' : (acc ++ [ImportCsv.prodOfRow code r]).any
              (fun p => p.material = c) = true := by
            rw [List.any_append]
            simp [hacc]
          have hmain := ih (acc ++ [ImportCsv.prodOfRow code r]) hacc'
          refine ⟨hmain.1.trans ?_, hmain.2.trans ?_⟩
          · rw [List.find?_append]
            cases hfa : acc.find? (fun p => decide (p.material = c))
            · exfalso
              rw [List.any_eq_true] at hacc
              obtain ⟨p, hp, hpc⟩ := hacc
              rw [List.find?_eq_none] at hfa
              exact absurd (by simpa using hpc) (by simpa using hfa p hp)
            · rfl
          · rw [List.countP_append]
            simp [ImportCsv.prodOfRow, hcc]

theorem collect_absent (data : List Row) (c : String) (hc : c ≠ "") :
    ∀ acc : List ImportCsv.ProdSpec,
      (∀ p ∈ acc, p.material ≠ c) →
      ((data.foldl ImportCsv.collectStep acc).find? (fun p => decide (p.material = c)) =
        (data.find? (fun r => decide (r.itemCode = some c))).map
          (fun r0 => ImportCsv.prodOfRow c r0))
      ∧ ((data.foldl ImportCsv.collectStep acc).countP (fun p => decide (p.material = c)) =
        if (data.find? (fun r => decide (r.itemCode = some c))).isSome then 1 else 0) := by
  induction data with
  | nil =>
    intro acc hacc
    constructor
    · rw [List.find?_eq_none.mpr]
      · rfl
      · intro p hp
        simpa using hacc p hp
    · rw [List.countP_eq_zero.mpr]
      · rfl
      · intro p hp
        simpa using hacc p hp
  | cons r t ih =>
    intro acc hacc
    rw [List.foldl_cons]
    have hfind : (r :: t).find? (fun r => decide (r.itemCode = some c)) =
        if r.itemCode = some c then some r
        else t.find? (fun r => decide (r.itemCode = some c)) := by
      rw [List.find?_cons]
      by_cases h : r.itemCode = some c <;> simp [h]
    rcases hr : r.itemCode with _ | code
    · rw [show ImportCsv.collectStep acc r = acc by simp [ImportCsv.collectStep, hr]]
      rw [hfind, if_neg (by simp [hr])]
      exact ih acc hacc
    · by_cases h0 : code = ""
      · subst h0
        rw [show ImportCsv.collectStep acc r = acc by simp [ImportCsv.collectStep, hr]]
        rw [hfind, if_neg (by simp [hr]; exact fun h => hc h.symm)]
        exact ih acc hacc
      · by_cases hceq : code = c
        · subst hceq
          have hany : acc.any (fun p => p.material = code) = false := by
            rw [List.any_eq_false]
            intro p hp
            simpa using hacc p hp
          rw [show ImportCsv.collectStep acc r = acc ++ [ImportCsv.prodOfRow code r] by
            simp [ImportCsv.collectStep, hr, h0, hany]]
          rw [hfind, if_pos (by rw [hr])]
          have hacc' : (acc ++ [ImportCsv.prodOfRow code r]).any
              (fun p => p.material = code) = true := by
            rw [List.any_append]
            simp [ImportCsv.prodOfRow]
          have hmain := collect_present t code (acc ++ [ImportCsv.prodOfRow code r]) hacc'
          refine ⟨hmain.1.trans ?_, hmain.2.trans ?_⟩
          · rw [List.find?_append, List.find?_eq_none.mpr
              (fun p hp => by simpa using hacc p hp)]
            simp [ImportCsv.prodOfRow]
          · rw [List.countP_append, List.countP_eq_zero.mpr
              (fun p hp => by simpa using hacc p hp)]
            simp [ImportCsv.prodOfRow]
        · rw [hfind, if_neg (by simp [hr, hceq])]
          by_cases hany : acc.any (fun p => p.material = code)
          · rw [show ImportCsv.collectStep acc r = acc by
              simp [ImportCsv.collectStep, hr, h0, hany]]
            exact ih acc hacc
          · rw [show ImportCsv.collectStep acc r = acc ++ [ImportCsv.prodOfRow code r] by
              simp [ImportCsv.collectStep, hr, h0, hany]]
            refine ih (acc ++ [ImportCsv.prodOfRow code r]) ?_
            intro p hp
            rcases List.mem_append.mp hp with hp | hp
            · exact hacc p hp
            · rw [List.mem_singleton] at hp
              subst hp
              simpa [ImportCsv.prodOfRow] using hceq

theorem csvProductStep_other (q : ImportCsv.ProdSpec) (db : Model.DB) (c : String)
    (hne : q.material ≠ c) :
    (ImportCsv.productStep q db).products c = db.products c := by
  have h2 : ¬ c = q.material := fun h => hne h.symm
  unfold ImportCsv.productStep
  cases db.products q.material <;> simp [h2]

theorem csvProductsPhase_none_after (ps : List ImportCsv.ProdSpec) (c : String) :
    ∀ db : Model.DB, ps.countP (fun p => decide (p.material = c)) = 0 →
      (ImportCsv.insertProductsPhase ps db).products c = db.products c := by
  induction ps with
  | nil => exact fun db _ => rfl
  | cons q t ih =>
    intro db hcnt
    by_cases hq : q.material = c
    · rw [List.countP_cons_of_pos _ _ (by simpa using hq)] at hcnt
      omega
    · rw [List.countP_cons_of_neg _ _ (by simpa using hq)] at hcnt
      show (ImportCsv.insertProductsPhase t (ImportCsv.productStep q db)).products c = _
      rw [ih (ImportCsv.productStep q db) hcnt, csvProductStep_other q db c hq]

theorem csvProductsPhase_insert (ps : List ImportCsv.ProdSpec) (c : String)
    (p : ImportCsv.ProdSpec) :
    ∀ db : Model.DB, ps.countP (fun x => decide (x.material = c)) = 1 →
      ps.find? (fun x => decide (x.material = c)) = some p →
      ∃ pid, (ImportCsv.insertProductsPhase ps db).products c =
        some ⟨pid, some p.tonnage, p.star, p.technology, p.price, p.factoryStock⟩ := by
  induction ps with
  | nil => intro db h; simp at h
  | cons q t ih =>
    intro db hcnt hfind
    by_cases hq : q.material = c
    · rw [List.countP_cons_of_pos _ _ (by simpa using hq)] at hcnt
      have hfq : (q :: t).find? (fun x => decide (x.material = c)) = some q := by
        simp [List.find?_cons, hq]
      rw [hfq, Option.some_inj] at hfind
      subst hfind
      have hcnt' : t.countP (fun x => decide (x.material = c)) = 0 := by omega
      show ∃ pid, (ImportCsv.insertProductsPhase t (ImportCsv.productStep q db)).products c = _
      rw [csvProductsPhase_none_after t c (ImportCsv.productStep q db) hcnt']
      unfold ImportCsv.productStep
      cases hdb : db.products q.material
      · exact ⟨db.nextProductId, by simp [hq]⟩
      · rename_i old
        exact ⟨old.id, by simp [hq]⟩
    · rw [List.countP_cons_of_neg _ _ (by simpa using hq)] at hcnt
      have hfq : (q :: t).find? (fun x => decide (x.material = c)) =
          t.find? (fun x => decide (x.material = c)) := by
        simp [List.find?_cons, hq]
      rw [hfq] at hfind
      show ∃ pid, (ImportCsv.insertProductsPhase t (ImportCsv.productStep q db)).products c = _
      obtain ⟨pid, hpid⟩ := ih (ImportCsv.productStep q db) hcnt hfind
      exact ⟨pid, hpid⟩

/-- C7: product deduplication in the CSV import script. For every item code
occurring (truthy) in the file, the in-memory product map holds exactly one
entry, that entry reads its tonnage, star, technology and price off the FIRST
row bearing the code, and the completed import leaves exactly that one
product row (keyed by the UNIQUE material column) with those attributes;
later rows with the same code change nothing. -/
theorem product_dedup_first_wins (data : List Row) (h1 h2 : String)
    (randB randI : ℕ → ℚ) (db : Model.DB) (c : String) (r0 : Row)
    (hc : c ≠ "")
    (hfind : data.find? (fun r => decide (r.itemCode = some c)) = some r0) :
    (ImportCsv.collectProducts data).countP (fun p => decide (p.material = c)) = 1
    ∧ (ImportCsv.collectProducts data).find? (fun p => decide (p.material = c)) =
      some (ImportCsv.prodOfRow c r0)
    ∧ ∃ pid, (ImportCsv.importCSVSalesData data h1 h2 randB randI db).products c =
        some ⟨pid, some ((ImportCsv.prodOfRow c r0).tonnage),
          (ImportCsv.prodOfRow c r0).star, (ImportCsv.prodOfRow c r0).technology,
          (ImportCsv.prodOfRow c r0).price, (ImportCsv.prodOfRow c r0).factoryStock⟩ := by
  have hcoll := collect_absent data c hc [] (by intro p hp; cases hp)
  have hcount : (ImportCsv.collectProducts data).countP
      (fun p => decide (p.material = c)) = 1 := by
    rw [ImportCsv.collectProducts, hcoll.2, hfind]
    rfl
  have hfindp : (ImportCsv.collectProducts data).find?
      (fun p => decide (p.material = c)) = some (ImportCsv.prodOfRow c r0) := by
    rw [ImportCsv.collectProducts, hcoll.1, hfind]
    rfl
  refine ⟨hcount, hfindp, ?_⟩
  unfold ImportCsv.importCSVSalesData ImportCsv.invPhase
  rw [(csvInvSteps_frame randI (ImportCsv.aggregateSales data) 0 _).1]
  exact csvProductsPhase_insert (ImportCsv.collectProducts data) c
    (ImportCsv.prodOfRow c r0) _ hcount hfindp

theorem product_dedup_first_wins_check :
    (ImportCsv.collectProducts [c7rowA, c7rowB]).countP
        (fun p => decide (p.material = "A")) = 1
    ∧ (ImportCsv.collectProducts [c7rowA, c7rowB]).find?
        (fun p => decide (p.material = "A")) = some (ImportCsv.prodOfRow "A" c7rowA)
    ∧ ∃ pid, (ImportCsv.importCSVSalesData [c7rowA, c7rowB] "h1" "h2" (fun _ => 0)
        (fun _ => 0) Model.emptyDB).products "A" =
        some ⟨pid, some ((ImportCsv.prodOfRow "A" c7rowA).tonnage),
          (ImportCsv.prodOfRow "A" c7rowA).star, (ImportCsv.prodOfRow "A" c7rowA).technology,
          (ImportCsv.prodOfRow "A" c7rowA).price, (ImportCsv.prodOfRow "A" c7rowA).factoryStock⟩ :=
  product_dedup_first_wins [c7rowA, c7rowB] "h1" "h2" (fun _ => 0) (fun _ => 0)
    Model.emptyDB "A" c7rowA (by decide) (by decide)

theorem strEq_of_data {x y : String} (h : x.data = y.data) : x = y := by
  cases x
  cases y
  exact congrArg String.mk h

theorem makeKey_data (x y : String) :
    (Upload.makeKey x y).data = x.data ++ '-' :: y.data := by
  show (x ++ "-" ++ y).data = _
  rw [strData_append, strData_append]
  simp

theorem append_sep_inj (sep : Char) (a : List Char) :
    ∀ (c b d : List Char), sep ∉ a → sep ∉ c →
      a ++ sep :: b = c ++ sep :: d → a = c ∧ b = d := by
  induction a with
  | nil =>
    intro c b d _ hc h
    cases c with
    | nil => simpa using h
    | cons y c' =>
      rw [List.nil_append, List.cons_append, List.cons_eq_cons] at h
      exact absurd (h.1 ▸ List.mem_cons_self y c') hc
  | cons x a' ih =>
    intro c b d ha hc h
    cases c with
    | nil =>
      rw [List.nil_append, List.cons_append, List.cons_eq_cons] at h
      exact absurd (h.1.symm ▸ List.mem_cons_self x a') ha
    | cons y c' =>
      rw [List.cons_append, List.cons_append, List.cons_eq_cons] at h
      have ha' : sep ∉ a' := fun hm => ha (List.mem_cons_of_mem x hm)
      have hc' : sep ∉ c' := fun hm => hc (List.mem_cons_of_mem y hm)
      obtain ⟨h1, h2⟩ := ih c' b d ha' hc' h.2
      exact ⟨by rw [h.1, h1], h2⟩

theorem makeKey_inj (c b ic bn : String) (hcf : '-' ∉ c.data) (hicf : '-' ∉ ic.data)
    (h : Upload.makeKey ic bn = Upload.makeKey c b) : ic = c ∧ bn = b := by
  have hd : ic.data ++ '-' :: bn.data = c.data ++ '-' :: b.data := by
    rw [← makeKey_data, ← makeKey_data, h]
  obtain ⟨h1, h2⟩ := append_sep_inj '-' ic.data c.data bn.data b.data hicf hcf hd
  exact ⟨strEq_of_data h1, strEq_of_data h2⟩

theorem lookupAgg_bump_self (l : List (String × ImportCsv.AggEntry)) (k ic bn : String)
    (q : ℚ) :
    ImportCsv.lookupAgg (ImportCsv.bumpAgg l k ic bn q) k =
      match ImportCsv.lookupAgg l k with
      | none => some ⟨ic, bn, q, 1⟩
      | some e => some { e with totalSales := e.totalSales + q,
                                transactionCount := e.transactionCount + 1 } := by
  induction l with
  | nil => simp [ImportCsv.bumpAgg, ImportCsv.lookupAgg]
  | cons x t ih =>
    rcases x with ⟨k2, e2⟩
    by_cases hk : k2 = k
    · subst hk
      simp [ImportCsv.bumpAgg, ImportCsv.lookupAgg]
    · simp [ImportCsv.bumpAgg, ImportCsv.lookupAgg, hk, ih]

theorem lookupAgg_bump_other (l : List (String × ImportCsv.AggEntry))
    (k k2 ic bn : String) (q : ℚ) (hne : k ≠ k2) :
    ImportCsv.lookupAgg (ImportCsv.bumpAgg l k ic bn q) k2 =
      ImportCsv.lookupAgg l k2 := by
  induction l with
  | nil => simp [ImportCsv.bumpAgg, ImportCsv.lookupAgg, hne]
  | cons x t ih =>
    rcases x with ⟨k3, e3⟩
    by_cases hk : k3 = k
    · subst hk
      simp [ImportCsv.bumpAgg, ImportCsv.lookupAgg, hne]
    · simp [ImportCsv.bumpAgg, ImportCsv.lookupAgg, hk, ih]

theorem lookupAgg_eq_none (l : List (String × ImportCsv.AggEntry)) (k : String) :
    ImportCsv.lookupAgg l k = none ↔ ∀ x ∈ l, x.1 ≠ k := by
  induction l with
  | nil => simp [ImportCsv.lookupAgg]
  | cons x t ih =>
    rcases x with ⟨k2, e2⟩
    by_cases hk : k2 = k
    · subst hk
      simp [ImportCsv.lookupAgg]
    · simp [ImportCsv.lookupAgg, hk, ih]

theorem bumpAgg_keys (l : List (String × ImportCsv.AggEntry)) (k ic bn : String) (q : ℚ) :
    ∀ x ∈ ImportCsv.bumpAgg l k ic bn q, x.1 = k ∨ x.1 ∈ l.map Prod.fst := by
  induction l with
  | nil =>
    intro x hx
    rw [ImportCsv.bumpAgg, List.mem_singleton] at hx
    subst hx
    exact Or.inl rfl
  | cons y t ih =>
    rcases y with ⟨k2, e2⟩
    intro x hx
    by_cases hk : k2 = k
    · subst hk
      rw [ImportCsv.bumpAgg, if_pos rfl] at hx
      rcases List.mem_cons.mp hx with hx | hx
      · subst hx
        exact Or.inl rfl
      · exact Or.inr (by simp; exact Or.inr ⟨x.2, hx⟩)
    · rw [ImportCsv.bumpAgg, if_neg hk] at hx
      rcases List.mem_cons.mp hx with hx | hx
      · subst hx
        exact Or.inr (by simp)
      · rcases ih x hx with h | h
        · exact Or.inl h
        · exact Or.inr (by simp at h ⊢; exact Or.inr h)

theorem bumpAgg_nodup (l : List (String × ImportCsv.AggEntry)) (k ic bn : String) (q : ℚ)
    (hnd : l.Pairwise (fun a b => a.1 ≠ b.1)) :
    (ImportCsv.bumpAgg l k ic bn q).Pairwise (fun a b => a.1 ≠ b.1) := by
  induction l with
  | nil => simp [ImportCsv.bumpAgg]
  | cons y t ih =>
    rcases y with ⟨k2, e2⟩
    rw [List.pairwise_cons] at hnd
    by_cases hk : k2 = k
    · subst hk
      rw [ImportCsv.bumpAgg, if_pos rfl, List.pairwise_cons]
      exact ⟨hnd.1, hnd.2⟩
    · rw [ImportCsv.bumpAgg, if_neg hk, List.pairwise_cons]
      refine ⟨?_, ih hnd.2⟩
      intro x hx
      rcases bumpAgg_keys t k ic bn q x hx with h | h
      · rw [h]
        exact hk
      · rw [List.mem_map] at h
        obtain ⟨a, ha, hax⟩ := h
        rw [← hax]
        exact hnd.1 a ha

theorem aggStep_nodup (acc : List (String × ImportCsv.AggEntry)) (r : Row)
    (hnd : acc.Pairwise (fun a b => a.1 ≠ b.1)) :
    (ImportCsv.aggStep acc r).Pairwise (fun a b => a.1 ≠ b.1) := by
  unfold ImportCsv.aggStep
  rcases r.itemCode with _ | ic <;> rcases r.branch with _ | bn <;> simp
  · exact hnd
  · exact hnd
  · exact hnd
  · split
    · exact bumpAgg_nodup acc _ ic bn _ hnd
    · exact hnd

theorem aggregateSales_nodup (data : List Row) :
    ∀ acc, acc.Pairwise (fun a b => a.1 ≠ b.1) →
      (data.foldl ImportCsv.aggStep acc).Pairwise (fun a b => a.1 ≠ b.1) := by
  induction data with
  | nil => exact fun acc h => h
  | cons r t ih =>
    intro acc hnd
    rw [List.foldl_cons]
    exact ih (ImportCsv.aggStep acc r) (aggStep_nodup acc r hnd)

theorem bumpAgg_members (l : List (String × ImportCsv.AggEntry)) (k ic bn : String)
    (q : ℚ) :
    ∀ x ∈ ImportCsv.bumpAgg l k ic bn q,
      (∃ y ∈ l, y.1 = x.1 ∧ y.2.itemCode = x.2.itemCode
        ∧ y.2.branchName = x.2.branchName)
      ∨ (x.1 = k ∧ x.2.itemCode = ic ∧ x.2.branchName = bn) := by
  induction l with
  | nil =>
    intro x hx
    rw [ImportCsv.bumpAgg, List.mem_singleton] at hx
    subst hx
    exact Or.inr ⟨rfl, rfl, rfl⟩
  | cons y t ih =>
    rcases y with ⟨k2, e2⟩
    intro x hx
    by_cases hk : k2 = k
    · subst hk
      rw [ImportCsv.bumpAgg, if_pos rfl] at hx
      rcases List.mem_cons.mp hx with hx | hx
      · subst hx
        exact Or.inl ⟨(k2, e2), List.mem_cons_self _ _, rfl, rfl, rfl⟩
      · exact Or.inl ⟨x, List.mem_cons_of_mem _ hx, rfl, rfl, rfl⟩
    · rw [ImportCsv.bumpAgg, if_neg hk] at hx
      rcases List.mem_cons.mp hx with hx | hx
      · subst hx
        exact Or.inl ⟨(k2, e2), List.mem_cons_self _ _, rfl, rfl, rfl⟩
      · rcases ih x hx with ⟨y, hy, hy1, hy2, hy3⟩ | h
        · exact Or.inl ⟨y, List.mem_cons_of_mem _ hy, hy1, hy2, hy3⟩
        · exact Or.inr h

theorem agg_entry_inv (data0 : List Row) (data : List Row)
    (hsub : ∀ r ∈ data, r ∈ data0) :
    ∀ acc, (∀ x ∈ acc, ImportCsv.entryFromData data0 x) →
      ∀ x ∈ data.foldl ImportCsv.aggStep acc, ImportCsv.entryFromData data0 x := by
  induction data with
  | nil => exact fun acc hacc => hacc
  | cons r t ih =>
    intro acc hacc
    rw [List.foldl_cons]
    refine ih (fun r' hr' => hsub r' (List.mem_cons_of_mem r hr'))
      (ImportCsv.aggStep acc r) ?_
    intro x hx
    unfold ImportCsv.aggStep at hx
    rcases hic : r.itemCode with _ | ic
    · rw [hic] at hx
      exact hacc x hx
    · rcases hbn : r.branch with _ | bn
      · rw [hic, hbn] at hx
        exact hacc x hx
      · rw [hic, hbn] at hx
        simp only at hx
        by_cases hg : ic ≠ "" ∧ bn ≠ "" ∧ r.salesQty.getD 0 > 0
        · rw [if_pos hg] at hx
          rcases bumpAgg_members acc (Upload.makeKey ic bn) ic bn
              (r.salesQty.getD 0) x hx with ⟨y, hy, hy1, hy2, hy3⟩ | ⟨h1, h2, h3⟩
          · obtain ⟨q1, q2, q3, q4⟩ := hacc y hy
            exact ⟨by rw [← hy1, q1, hy2, hy3], by rw [← hy2]; exact q2,
              by rw [← hy3]; exact q3, by rw [← hy2, ← hy3]; exact q4⟩
          · refine ⟨by rw [h1, h2, h3], by rw [h2]; exact hg.1,
              by rw [h3]; exact hg.2.1, ?_⟩
            exact ⟨r, hsub r (List.mem_cons_self r t), by rw [h2, hic], by rw [h3, hbn]⟩
        · rw [if_neg hg] at hx
          exact hacc x hx


theorem posTotal_cons (c b : String) (r : Row) (t : List Row) :
    ImportCsv.posTotal c b (r :: t) =
      (if r.itemCode = some c ∧ r.branch = some b ∧ r.salesQty.getD 0 > 0 then
        r.salesQty.getD 0 else 0) + ImportCsv.posTotal c b t := by
  unfold ImportCsv.posTotal
  by_cases h : r.itemCode = some c ∧ r.branch = some b ∧ r.salesQty.getD 0 > 0 <;>
    simp [List.filter_cons, h]

theorem agg_total_present (c b : String) (hcf : '-' ∉ c.data)
    (hc : c ≠ "") (hb : b ≠ "") (data : List Row)
    (hhyph : ∀ r ∈ data, ∀ s, r.itemCode = some s → '-' ∉ s.data) :
    ∀ acc e, ImportCsv.lookupAgg acc (Upload.makeKey c b) = some e →
      ∃ e', ImportCsv.lookupAgg (data.foldl ImportCsv.aggStep acc)
          (Upload.makeKey c b) = some e'
        ∧ e'.itemCode = e.itemCode ∧ e'.branchName = e.branchName
        ∧ e'.totalSales = e.totalSales + ImportCsv.posTotal c b data := by
  induction data with
  | nil =>
    intro acc e he
    exact ⟨e, he, rfl, rfl, by simp [ImportCsv.posTotal]⟩
  | cons r t ih =>
    intro acc e he
    have hhypht : ∀ r' ∈ t, ∀ s, r'.itemCode = some s → '-' ∉ s.data :=
      fun r' hr' => hhyph r' (List.mem_cons_of_mem r hr')
    rw [List.foldl_cons, posTotal_cons]
    rcases hic : r.itemCode with _ | ic
    · rw [show ImportCsv.aggStep acc r = acc by unfold ImportCsv.aggStep; rw [hic]]
      rw [if_neg (fun hcon => Option.noConfusion hcon.1)]
      obtain ⟨e', h1, h2, h3, h4⟩ := ih hhypht acc e he
      exact ⟨e', h1, h2, h3, by rw [h4]; ring⟩
    · rcases hbn : r.branch with _ | bn
      · rw [show ImportCsv.aggStep acc r = acc by unfold ImportCsv.aggStep; rw [hic, hbn]]
        rw [if_neg (fun hcon => Option.noConfusion hcon.2.1)]
        obtain ⟨e', h1, h2, h3, h4⟩ := ih hhypht acc e he
        exact ⟨e', h1, h2, h3, by rw [h4]; ring⟩
      · by_cases hg : ic ≠ "" ∧ bn ≠ "" ∧ r.salesQty.getD 0 > 0
        · rw [show ImportCsv.aggStep acc r =
              ImportCsv.bumpAgg acc (Upload.makeKey ic bn) ic bn (r.salesQty.getD 0) by
            unfold ImportCsv.aggStep; rw [hic, hbn]; simp only [gt_iff_lt]
            rw [if_pos (by simpa using hg)]]
          by_cases hkey : Upload.makeKey ic bn = Upload.makeKey c b
          · have hicf : '-' ∉ ic.data := hhyph r (List.mem_cons_self r t) ic hic
            obtain ⟨hicc, hbnb⟩ := makeKey_inj c b ic bn hcf hicf hkey
            subst hicc
            subst hbnb
            have hbump := lookupAgg_bump_self acc (Upload.makeKey ic bn) ic bn
              (r.salesQty.getD 0)
            rw [he] at hbump
            obtain ⟨e', h1, h2, h3, h4⟩ := ih hhypht _ _ hbump
            refine ⟨e', h1, h2, h3, ?_⟩
            rw [h4, if_pos ⟨rfl, rfl, hg.2.2⟩]
            show e.totalSales + r.salesQty.getD 0 + _ = _
            ring
          · rw [if_neg (fun hcon => hkey (by
              rw [Option.some_inj.mp hcon.1, Option.some_inj.mp hcon.2.1]))]
            have he2 : ImportCsv.lookupAgg
                (ImportCsv.bumpAgg acc (Upload.makeKey ic bn) ic bn (r.salesQty.getD 0))
                (Upload.makeKey c b) = some e := by
              rw [lookupAgg_bump_other acc (Upload.makeKey ic bn) (Upload.makeKey c b)
                ic bn (r.salesQty.getD 0) hkey]
              exact he
            obtain ⟨e', h1, h2, h3, h4⟩ := ih hhypht _ e he2
            exact ⟨e', h1, h2, h3, by rw [h4]; ring⟩
        · rw [show ImportCsv.aggStep acc r = acc by
            unfold ImportCsv.aggStep; rw [hic, hbn]; simp only [gt_iff_lt]
            rw [if_neg (by simpa using hg)]]
          rw [if_neg (fun hcon => hg ⟨by
              rw [Option.some_inj.mp hcon.1]; exact hc, by
              rw [Option.some_inj.mp hcon.2.1]; exact hb, hcon.2.2⟩)]
          obtain ⟨e', h1, h2, h3, h4⟩ := ih hhypht acc e he
          exact ⟨e', h1, h2, h3, by rw [h4]; ring⟩

theorem agg_total_absent (c b : String) (hcf : '-' ∉ c.data)
    (hc : c ≠ "") (hb : b ≠ "") (data : List Row)
    (hhyph : ∀ r ∈ data, ∀ s, r.itemCode = some s → '-' ∉ s.data) :
    ∀ acc, ImportCsv.lookupAgg acc (Upload.makeKey c b) = none →
      ((∀ r ∈ data, ¬(r.itemCode = some c ∧ r.branch = some b ∧ r.salesQty.getD 0 > 0)) →
        ImportCsv.lookupAgg (data.foldl ImportCsv.aggStep acc) (Upload.makeKey c b) = none)
      ∧ ((∃ r ∈ data, r.itemCode = some c ∧ r.branch = some b ∧ r.salesQty.getD 0 > 0) →
        ∃ e', ImportCsv.lookupAgg (data.foldl ImportCsv.aggStep acc)
            (Upload.makeKey c b) = some e'
          ∧ e'.itemCode = c ∧ e'.branchName = b
          ∧ e'.totalSales = ImportCsv.posTotal c b data) := by
  induction data with
  | nil =>
    intro acc he
    exact ⟨fun _ => he, fun h => by simp at h⟩
  | cons r t ih =>
    intro acc he
    have hhypht : ∀ r' ∈ t, ∀ s, r'.itemCode = some s → '-' ∉ s.data :=
      fun r' hr' => hhyph r' (List.mem_cons_of_mem r hr')
    rw [List.foldl_cons]
    rcases hic : r.itemCode with _ | ic
    · have hmiss : ¬(r.itemCode = some c ∧ r.branch = some b ∧ r.salesQty.getD 0 > 0) :=
        fun hcon => Option.noConfusion (hic.symm.trans hcon.1)
      rw [show ImportCsv.aggStep acc r = acc by unfold ImportCsv.aggStep; rw [hic]]
      obtain ⟨ihn, ihs⟩ := ih hhypht acc he
      refine ⟨fun hnone => ihn (fun r' hr' => hnone r' (List.mem_cons_of_mem r hr')), ?_⟩
      rintro ⟨r', hr', hprop⟩
      rcases List.mem_cons.mp hr' with rfl | hr'
      · exact absurd hprop hmiss
      · obtain ⟨e', h1, h2, h3, h4⟩ := ihs ⟨r', hr', hprop⟩
        refine ⟨e', h1, h2, h3, ?_⟩
        rw [h4, posTotal_cons, if_neg hmiss]
        ring
    · rcases hbn : r.branch with _ | bn
      · have hmiss : ¬(r.itemCode = some c ∧ r.branch = some b ∧
            r.salesQty.getD 0 > 0) :=
          fun hcon => Option.noConfusion (hbn.symm.trans hcon.2.1)
        rw [show ImportCsv.aggStep acc r = acc by
          unfold ImportCsv.aggStep; rw [hic, hbn]]
        obtain ⟨ihn, ihs⟩ := ih hhypht acc he
        refine ⟨fun hnone => ihn (fun r' hr' => hnone r' (List.mem_cons_of_mem r hr')), ?_⟩
        rintro ⟨r', hr', hprop⟩
        rcases List.mem_cons.mp hr' with rfl | hr'
        · exact absurd hprop hmiss
        · obtain ⟨e', h1, h2, h3, h4⟩ := ihs ⟨r', hr', hprop⟩
          refine ⟨e', h1, h2, h3, ?_⟩
          rw [h4, posTotal_cons, if_neg hmiss]
          ring
      · by_cases hg : ic ≠ "" ∧ bn ≠ "" ∧ r.salesQty.getD 0 > 0
        · rw [show ImportCsv.aggStep acc r =
              ImportCsv.bumpAgg acc (Upload.makeKey ic bn) ic bn (r.salesQty.getD 0) by
            unfold ImportCsv.aggStep; rw [hic, hbn]; simp only [gt_iff_lt]
            rw [if_pos (by simpa using hg)]]
          by_cases hkey : Upload.makeKey ic bn = Upload.makeKey c b
          · have hicf : '-' ∉ ic.data := hhyph r (List.mem_cons_self r t) ic hic
            obtain ⟨hicc, hbnb⟩ := makeKey_inj c b ic bn hcf hicf hkey
            subst hicc
            subst hbnb
            have hhit : r.itemCode = some ic ∧ r.branch = some bn ∧
                r.salesQty.getD 0 > 0 := ⟨hic, hbn, hg.2.2⟩
            have hbump := lookupAgg_bump_self acc (Upload.makeKey ic bn) ic bn
              (r.salesQty.getD 0)
            rw [he] at hbump
            constructor
            · intro hnone
              exact absurd hhit (hnone r (List.mem_cons_self r t))
            · intro _
              obtain ⟨e', h1, h2, h3, h4⟩ :=
                agg_total_present ic bn hcf hc hb t hhypht _ _ hbump
              refine ⟨e', h1, h2, h3, ?_⟩
              rw [h4, posTotal_cons, if_pos hhit]
          · have hmiss : ¬(r.itemCode = some c ∧ r.branch = some b ∧
                r.salesQty.getD 0 > 0) :=
              fun hcon => hkey (by
                rw [Option.some_inj.mp (hic.symm.trans hcon.1),
                  Option.some_inj.mp (hbn.symm.trans hcon.2.1)])
            have he2 : ImportCsv.lookupAgg
                (ImportCsv.bumpAgg acc (Upload.makeKey ic bn) ic bn (r.salesQty.getD 0))
                (Upload.makeKey c b) = none := by
              rw [lookupAgg_bump_other acc (Upload.makeKey ic bn) (Upload.makeKey c b)
                ic bn (r.salesQty.getD 0) hkey]
              exact he
            obtain ⟨ihn, ihs⟩ := ih hhypht _ he2
            refine ⟨fun hnone => ihn (fun r' hr' =>
              hnone r' (List.mem_cons_of_mem r hr')), ?_⟩
            rintro ⟨r', hr', hprop⟩
            rcases List.mem_cons.mp hr' with rfl | hr'
            · exact absurd hprop hmiss
            · obtain ⟨e', h1, h2, h3, h4⟩ := ihs ⟨r', hr', hprop⟩
              refine ⟨e', h1, h2, h3, ?_⟩
              rw [h4, posTotal_cons, if_neg hmiss]
              ring
        · have hmiss : ¬(r.itemCode = some c ∧ r.branch = some b ∧
              r.salesQty.getD 0 > 0) :=
            fun hcon => hg ⟨by
              rw [Option.some_inj.mp (hic.symm.trans hcon.1)]; exact hc, by
              rw [Option.some_inj.mp (hbn.symm.trans hcon.2.1)]; exact hb, hcon.2.2⟩
          rw [show ImportCsv.aggStep acc r = acc by
            unfold ImportCsv.aggStep; rw [hic, hbn]; simp only [gt_iff_lt]
            rw [if_neg (by simpa using hg)]]
          obtain ⟨ihn, ihs⟩ := ih hhypht acc he
          refine ⟨fun hnone => ihn (fun r' hr' =>
            hnone r' (List.mem_cons_of_mem r hr')), ?_⟩
          rintro ⟨r', hr', hprop⟩
          rcases List.mem_cons.mp hr' with rfl | hr'
          · exact absurd hprop hmiss
          · obtain ⟨e', h1, h2, h3, h4⟩ := ihs ⟨r', hr', hprop⟩
            refine ⟨e', h1, h2, h3, ?_⟩
            rw [h4, posTotal_cons, if_neg hmiss]
            ring

theorem inv_fold (rand : ℕ → ℚ) (c b : String) (hcf : '-' ∉ c.data)
    (p : Model.ProductRec) (β : Model.BranchRec)
    (hpid : p.id ≠ 0) (hbid : β.id ≠ 0) :
    ∀ (l : List (String × ImportCsv.AggEntry)) (i : ℕ) (db : Model.DB),
      l.Pairwise (fun x y => x.1 ≠ y.1) →
      (∀ x ∈ l, x.1 = Upload.makeKey x.2.itemCode x.2.branchName
        ∧ '-' ∉ x.2.itemCode.data) →
      db.products c = some p → db.branches b = some β →
      (∀ m1 m2 q1 q2, db.products m1 = some q1 → db.products m2 = some q2 →
        q1.id = q2.id → m1 = m2) →
      (∀ n1 n2 r1 r2, db.branches n1 = some r1 → db.branches n2 = some r2 →
        r1.id = r2.id → n1 = n2) →
      (ImportCsv.lookupAgg l (Upload.makeKey c b) = none →
        (Model.applySteps (ImportCsv.invSteps rand i l) db).inventory (p.id, β.id) =
          db.inventory (p.id, β.id))
      ∧ (∀ e, ImportCsv.lookupAgg l (Upload.makeKey c b) = some e →
        ∃ rec, (Model.applySteps (ImportCsv.invSteps rand i l) db).inventory
            (p.id, β.id) = some rec ∧ rec.billing = Js.round e.totalSales) := by
  intro l
  induction l with
  | nil =>
    intro i db _ _ _ _ _ _
    exact ⟨fun _ => rfl, fun e he => by simp [ImportCsv.lookupAgg] at he⟩
  | cons x t ih =>
    intro i db hnd hprov hp hβ hinjP hinjB
    rcases x with ⟨k', e'⟩
    obtain ⟨hk', hicf⟩ := hprov (k', e') (List.mem_cons_self _ _)
    have hndt : t.Pairwise (fun x y => x.1 ≠ y.1) := (List.pairwise_cons.mp hnd).2
    have hkt : ∀ y ∈ t, (k', e').1 ≠ y.1 := (List.pairwise_cons.mp hnd).1
    have hprovt : ∀ x ∈ t, x.1 = Upload.makeKey x.2.itemCode x.2.branchName
        ∧ '-' ∉ x.2.itemCode.data := fun x hx => hprov x (List.mem_cons_of_mem _ hx)
    have hfold : Model.applySteps (ImportCsv.invSteps rand i ((k', e') :: t)) db =
        Model.applySteps (ImportCsv.invSteps rand (i + 1) t)
          (ImportCsv.invStep rand i e' db) := rfl
    have hfr := csvInvStep_frame rand i e' db
    have hp2 : (ImportCsv.invStep rand i e' db).products c = some p := by
      rw [hfr.1]; exact hp
    have hβ2 : (ImportCsv.invStep rand i e' db).branches b = some β := by
      rw [hfr.2.1]; exact hβ
    have hinjP2 : ∀ m1 m2 q1 q2, (ImportCsv.invStep rand i e' db).products m1 = some q1 →
        (ImportCsv.invStep rand i e' db).products m2 = some q2 →
        q1.id = q2.id → m1 = m2 := by
      intro m1 m2 q1 q2 h1 h2 hq
      rw [hfr.1] at h1 h2
      exact hinjP m1 m2 q1 q2 h1 h2 hq
    have hinjB2 : ∀ n1 n2 r1 r2, (ImportCsv.invStep rand i e' db).branches n1 = some r1 →
        (ImportCsv.invStep rand i e' db).branches n2 = some r2 →
        r1.id = r2.id → n1 = n2 := by
      intro n1 n2 r1 r2 h1 h2 hr
      rw [hfr.2.1] at h1 h2
      exact hinjB n1 n2 r1 r2 h1 h2 hr
    have iht := ih (i + 1) (ImportCsv.invStep rand i e' db) hndt hprovt hp2 hβ2
      hinjP2 hinjB2
    by_cases hkk : k' = Upload.makeKey c b
    · obtain ⟨hicc, hbnb⟩ := makeKey_inj c b e'.itemCode e'.branchName hcf hicf
        (hk'.symm.trans hkk)
    
      have hstep : (ImportCsv.invStep rand i e' db).inventory (p.id, β.id) =
          some ⟨Js.round ((Js.round ((Js.round ((Js.round e'.totalSales : ℚ) *
              (9/10 + rand (4 * i) * (4/10))) : ℚ) *
              (1/10 + rand (4 * i + 1) * (8/10))) : ℚ) + (Js.round e'.totalSales : ℚ)
              + rand (4 * i + 3) * 100),
            Js.round ((Js.round ((Js.round e'.totalSales : ℚ) *
              (9/10 + rand (4 * i) * (4/10))) : ℚ) * (1/10 + rand (4 * i + 1) * (8/10))),
            Js.round ((Js.round ((Js.round e'.totalSales : ℚ) *
              (9/10 + rand (4 * i) * (4/10))) : ℚ) * (5/100 + rand (4 * i + 2) * (15/100))),
            Js.round e'.totalSales,
            Js.round ((Js.round e'.totalSales : ℚ) * (9/10 + rand (4 * i) * (4/10)))⟩ := by
        unfold ImportCsv.invStep
        rw [hicc, hbnb, hp, hβ]
        simp only [ne_eq]
        rw [if_pos ⟨hpid, hbid⟩]
        simp [Upload.upsertInventorySet]
      have htnone : ImportCsv.lookupAgg t (Upload.makeKey c b) = none := by
        rw [lookupAgg_eq_none]
        intro y hy
        exact fun hh => hkt y hy (hkk.trans hh.symm)
      constructor
      · intro habs
        rw [show ImportCsv.lookupAgg ((k', e') :: t) (Upload.makeKey c b) =
            some e' by unfold ImportCsv.lookupAgg; rw [if_pos hkk]] at habs
        exact Option.noConfusion habs
      · intro e he
        rw [show ImportCsv.lookupAgg ((k', e') :: t) (Upload.makeKey c b) =
            some e' by unfold ImportCsv.lookupAgg; rw [if_pos hkk]] at he
        rw [Option.some_inj] at he
        subst he
        exact ⟨_, (iht.1 htnone).trans hstep, rfl⟩
    · have hstep : (ImportCsv.invStep rand i e' db).inventory (p.id, β.id) =
          db.inventory (p.id, β.id) := by
        unfold ImportCsv.invStep
        cases hdp : db.products e'.itemCode with
        | none => rfl
        | some p' =>
          cases hdb2 : db.branches e'.branchName with
          | none => rfl
          | some β' =>
            simp only [ne_eq]
            by_cases hg : ¬p'.id = 0 ∧ ¬β'.id = 0
            · rw [if_pos hg]
              show (Upload.upsertInventorySet db p'.id β'.id _).inventory (p.id, β.id) = _
              unfold Upload.upsertInventorySet
              simp only []
              rw [if_neg]
              intro hpair
              rw [Prod.mk.injEq] at hpair
              have hcm : c = e'.itemCode := hinjP c e'.itemCode p p' hp hdp hpair.1
              have hbm : b = e'.branchName := hinjB b e'.branchName β β' hβ hdb2 hpair.2
              exact hkk (hk'.trans (by rw [← hcm, ← hbm]))
            · rw [if_neg hg]
      have hlook : ImportCsv.lookupAgg ((k', e') :: t) (Upload.makeKey c b) =
          ImportCsv.lookupAgg t (Upload.makeKey c b) := by
        show (if k' = Upload.makeKey c b then some e'
          else ImportCsv.lookupAgg t (Upload.makeKey c b)) = _
        rw [if_neg hkk]
      constructor
      · intro hnone
        rw [hlook] at hnone
        rw [hfold, iht.1 hnone, hstep]
      · intro e he
        rw [hlook] at he
        obtain ⟨rec, h1, h2⟩ := iht.2 e he
        exact ⟨rec, by rw [hfold, h1], h2⟩

theorem insertBranchIfAbsent_inv (db : Model.DB) (n s : String) (ms pen : Option ℚ)
    (h0 : 0 < db.nextBranchId)
    (h1 : ∀ m r, db.branches m = some r → 0 < r.id ∧ r.id < db.nextBranchId)
    (h2 : ∀ m1 m2 r1 r2, db.branches m1 = some r1 → db.branches m2 = some r2 →
      r1.id = r2.id → m1 = m2) :
    0 < (Model.insertBranchIfAbsent db n s ms pen).nextBranchId
    ∧ (∀ m r, (Model.insertBranchIfAbsent db n s ms pen).branches m = some r →
      0 < r.id ∧ r.id < (Model.insertBranchIfAbsent db n s ms pen).nextBranchId)
    ∧ (∀ m1 m2 r1 r2, (Model.insertBranchIfAbsent db n s ms pen).branches m1 = some r1 →
      (Model.insertBranchIfAbsent db n s ms pen).branches m2 = some r2 →
      r1.id = r2.id → m1 = m2) := by
  unfold Model.insertBranchIfAbsent
  cases hdb : db.branches n with
  | some β => exact ⟨h0, h1, h2⟩
  | none =>
    refine ⟨by simp, ?_, ?_⟩
    · intro m r hm
      simp only [] at hm
      by_cases hmn : m = n
      · rw [if_pos hmn, Option.some_inj] at hm
        subst hm
        simp
        omega
      · rw [if_neg hmn] at hm
        have := h1 m r hm
        simp
        omega
    · intro m1 m2 r1 r2 hm1 hm2 hid
      simp only [] at hm1 hm2
      by_cases hn1 : m1 = n <;> by_cases hn2 : m2 = n
      · rw [hn1, hn2]
      · rw [if_pos hn1, Option.some_inj] at hm1
        rw [if_neg hn2] at hm2
        subst hm1
        have := h1 m2 r2 hm2
        simp at hid
        omega
      · rw [if_neg hn1] at hm1
        rw [if_pos hn2, Option.some_inj] at hm2
        subst hm2
        have := h1 m1 r1 hm1
        simp at hid
        omega
      · rw [if_neg hn1] at hm1
        rw [if_neg hn2] at hm2
        exact h2 m1 m2 r1 r2 hm1 hm2 hid

theorem branchSteps_inv (rand : ℕ → ℚ) (names : List String) :
    ∀ (i : ℕ) (db : Model.DB),
      0 < db.nextBranchId →
      (∀ m r, db.branches m = some r → 0 < r.id ∧ r.id < db.nextBranchId) →
      (∀ m1 m2 r1 r2, db.branches m1 = some r1 → db.branches m2 = some r2 →
        r1.id = r2.id → m1 = m2) →
      0 < (Model.applySteps (ImportCsv.branchSteps rand i names) db).nextBranchId
      ∧ (∀ m r, (Model.applySteps (ImportCsv.branchSteps rand i names) db).branches m =
          some r → 0 < r.id ∧
          r.id < (Model.applySteps (ImportCsv.branchSteps rand i names) db).nextBranchId)
      ∧ (∀ m1 m2 r1 r2,
        (Model.applySteps (ImportCsv.branchSteps rand i names) db).branches m1 = some r1 →
        (Model.applySteps (ImportCsv.branchSteps rand i names) db).branches m2 = some r2 →
        r1.id = r2.id → m1 = m2) := by
  induction names with
  | nil => exact fun i db h0 h1 h2 => ⟨h0, h1, h2⟩
  | cons n t ih =>
    intro i db h0 h1 h2
    show 0 < (Model.applySteps (ImportCsv.branchSteps rand (i + 1) t)
        (ImportCsv.branchStep rand i n db)).nextBranchId ∧ _ ∧ _
    obtain ⟨g0, g1, g2⟩ := insertBranchIfAbsent_inv db n
      (Model.getStateForBranch n) _ _ h0 h1 h2
    exact ih (i + 1) (ImportCsv.branchStep rand i n db) g0 g1 g2

theorem csvProductStep_inv (p : ImportCsv.ProdSpec) (db : Model.DB)
    (h0 : 0 < db.nextProductId)
    (h1 : ∀ m q, db.products m = some q → 0 < q.id ∧ q.id < db.nextProductId)
    (h2 : ∀ m1 m2 q1 q2, db.products m1 = some q1 → db.products m2 = some q2 →
      q1.id = q2.id → m1 = m2) :
    0 < (ImportCsv.productStep p db).nextProductId
    ∧ (∀ m q, (ImportCsv.productStep p db).products m = some q →
      0 < q.id ∧ q.id < (ImportCsv.productStep p db).nextProductId)
    ∧ (∀ m1 m2 q1 q2, (ImportCsv.productStep p db).products m1 = some q1 →
      (ImportCsv.productStep p db).products m2 = some q2 →
      q1.id = q2.id → m1 = m2) := by
  unfold ImportCsv.productStep
  cases hdb : db.products p.material with
  | some old =>
    refine ⟨h0, ?_, ?_⟩
    · intro m q hm
      simp only [] at hm
      by_cases hmp : m = p.material
      · rw [if_pos hmp, Option.some_inj] at hm
        subst hm
        exact h1 p.material old hdb
      · rw [if_neg hmp] at hm
        exact h1 m q hm
    · intro m1 m2 q1 q2 hm1 hm2 hid
      simp only [] at hm1 hm2
      by_cases hn1 : m1 = p.material <;> by_cases hn2 : m2 = p.material
      · rw [hn1, hn2]
      · rw [if_pos hn1, Option.some_inj] at hm1
        rw [if_neg hn2] at hm2
        subst hm1
        simp at hid
        exact absurd (h2 p.material m2 old q2 hdb hm2 hid) (fun h => hn2 h.symm)
      · rw [if_neg hn1] at hm1
        rw [if_pos hn2, Option.some_inj] at hm2
        subst hm2
        simp at hid
        exact (h2 m1 p.material q1 old hm1 hdb hid).trans hn2.symm
      · rw [if_neg hn1] at hm1
        rw [if_neg hn2] at hm2
        exact h2 m1 m2 q1 q2 hm1 hm2 hid
  | none =>
    refine ⟨by simp, ?_, ?_⟩
    · intro m q hm
      simp only [] at hm
      by_cases hmp : m = p.material
      · rw [if_pos hmp, Option.some_inj] at hm
        subst hm
        simp
        omega
      · rw [if_neg hmp] at hm
        have := h1 m q hm
        simp
        omega
    · intro m1 m2 q1 q2 hm1 hm2 hid
      simp only [] at hm1 hm2
      by_cases hn1 : m1 = p.material <;> by_cases hn2 : m2 = p.material
      · rw [hn1, hn2]
      · rw [if_pos hn1, Option.some_inj] at hm1
        rw [if_neg hn2] at hm2
        subst hm1
        have := h1 m2 q2 hm2
        simp at hid
        omega
      · rw [if_neg hn1] at hm1
        rw [if_pos hn2, Option.some_inj] at hm2
        subst hm2
        have := h1 m1 q1 hm1
        simp at hid
        omega
      · rw [if_neg hn1] at hm1
        rw [if_neg hn2] at hm2
        exact h2 m1 m2 q1 q2 hm1 hm2 hid

theorem csvProductsPhase_inv (ps : List ImportCsv.ProdSpec) :
    ∀ db : Model.DB,
      0 < db.nextProductId →
      (∀ m q, db.products m = some q → 0 < q.id ∧ q.id < db.nextProductId) →
      (∀ m1 m2 q1 q2, db.products m1 = some q1 → db.products m2 = some q2 →
        q1.id = q2.id → m1 = m2) →
      0 < (ImportCsv.insertProductsPhase ps db).nextProductId
      ∧ (∀ m q, (ImportCsv.insertProductsPhase ps db).products m = some q →
        0 < q.id ∧ q.id < (ImportCsv.insertProductsPhase ps db).nextProductId)
      ∧ (∀ m1 m2 q1 q2, (ImportCsv.insertProductsPhase ps db).products m1 = some q1 →
        (ImportCsv.insertProductsPhase ps db).products m2 = some q2 →
        q1.id = q2.id → m1 = m2) := by
  induction ps with
  | nil => exact fun db h0 h1 h2 => ⟨h0, h1, h2⟩
  | cons p t ih =>
    intro db h0 h1 h2
    show 0 < (ImportCsv.insertProductsPhase t (ImportCsv.productStep p db)).nextProductId
      ∧ _ ∧ _
    obtain ⟨g0, g1, g2⟩ := csvProductStep_inv p db h0 h1 h2
    exact ih (ImportCsv.productStep p db) g0 g1 g2

theorem insertBranchIfAbsent_mono (db : Model.DB) (n s : String) (ms pen : Option ℚ)
    (m : String) (β : Model.BranchRec) (h : db.branches m = some β) :
    (Model.insertBranchIfAbsent db n s ms pen).branches m = some β := by
  unfold Model.insertBranchIfAbsent
  cases hdb : db.branches n with
  | some _ => exact h
  | none =>
    simp only []
    by_cases hmn : m = n
    · subst hmn
      rw [h] at hdb
      exact Option.noConfusion hdb
    · rw [if_neg hmn]
      exact h

theorem branchSteps_mono (rand : ℕ → ℚ) (names : List String) :
    ∀ (i : ℕ) (db : Model.DB) (m : String) (β : Model.BranchRec),
      db.branches m = some β →
      (Model.applySteps (ImportCsv.branchSteps rand i names) db).branches m = some β := by
  induction names with
  | nil => exact fun i db m β h => h
  | cons n t ih =>
    intro i db m β h
    show (Model.applySteps (ImportCsv.branchSteps rand (i + 1) t)
        (ImportCsv.branchStep rand i n db)).branches m = some β
    exact ih (i + 1) _ m β (insertBranchIfAbsent_mono db n _ _ _ m β h)

theorem branchStep_self (rand : ℕ → ℚ) (i : ℕ) (n : String) (db : Model.DB) :
    ∃ β, (ImportCsv.branchStep rand i n db).branches n = some β := by
  unfold ImportCsv.branchStep Model.insertBranchIfAbsent
  cases hdb : db.branches n with
  | some β => exact ⟨β, hdb⟩
  | none =>
    exact ⟨⟨db.nextBranchId, Model.getStateForBranch n,
      some ((Js.floorQ (rand (2 * i) * 10) + 15 : ℤ) : ℚ),
      some ((Js.floorQ (rand (2 * i + 1) * 20) + 65 : ℤ) : ℚ)⟩, by simp⟩

theorem branchesPhase_present (rand : ℕ → ℚ) (names : List String) :
    ∀ (i : ℕ) (db : Model.DB) (n : String), n ∈ names →
      ∃ β, (Model.applySteps (ImportCsv.branchSteps rand i names) db).branches n =
        some β := by
  induction names with
  | nil => intro i db n h; exact absurd h (List.not_mem_nil n)
  | cons m t ih =>
    intro i db n hn
    show ∃ β, (Model.applySteps (ImportCsv.branchSteps rand (i + 1) t)
        (ImportCsv.branchStep rand i m db)).branches n = some β
    rcases List.mem_cons.mp hn with rfl | hn
    · obtain ⟨β, hβ⟩ := branchStep_self rand i n db
      exact ⟨β, branchSteps_mono rand t (i + 1) _ n β hβ⟩
    · exact ih (i + 1) _ n hn

theorem dedup_mem (l : List (Option String)) (x : Option String) :
    ∀ acc, x ∈ l ∨ x ∈ acc →
      x ∈ l.foldl (fun acc b => if b ∈ acc then acc else acc ++ [b]) acc := by
  induction l with
  | nil =>
    intro acc h
    rcases h with h | h
    · exact absurd h (List.not_mem_nil x)
    · exact h
  | cons y t ih =>
    intro acc h
    rw [List.foldl_cons]
    by_cases hy : y ∈ acc
    · rw [if_pos hy]
      rcases h with h | h
      · rcases List.mem_cons.mp h with rfl | h
        · exact ih acc (Or.inr hy)
        · exact ih acc (Or.inl h)
      · exact ih acc (Or.inr h)
    · rw [if_neg hy]
      rcases h with h | h
      · rcases List.mem_cons.mp h with rfl | h
        · exact ih _ (Or.inr (by simp))
        · exact ih _ (Or.inl h)
      · exact ih _ (Or.inr (by simp [h]))

theorem branchList_mem (data : List Row) (r : Row) (b : String)
    (hr : r ∈ data) (hb : r.branch = some b) (hbne : b ≠ "") :
    b ∈ ImportCsv.branchList data := by
  unfold ImportCsv.branchList
  rw [List.mem_filter]
  refine ⟨?_, by simpa using hbne⟩
  rw [List.mem_filterMap]
  refine ⟨some b, ?_, rfl⟩
  exact dedup_mem _ (some b) []
    (Or.inl (by rw [List.mem_map]; exact ⟨r, hr, hb⟩))

/-- C6 (amended): in the CSV import script, when every item code of the file
is hyphen-free, then for each pair (item code, branch) — both non-empty, the
code hyphen-free — a pair with a positive-quantity row gets an inventory
record, keyed by its product and branch ids, whose billing is the rounded
sum of the positive parsed sales quantities of its rows; a pair with no
positive-quantity row gets no inventory record. Rows with a missing item
code, missing branch or non-positive quantity contribute nothing. With
hyphenated codes the claim fails (see the counterexample). -/
theorem billing_eq_rounded_sum (data : List Row) (h1 h2 : String)
    (randB randI : ℕ → ℚ) (db0 : Model.DB) (c b : String)
    (hhyph : ∀ r ∈ data, ∀ s, r.itemCode = some s → '-' ∉ s.data)
    (hcf : '-' ∉ c.data) (hc : c ≠ "") (hb : b ≠ "") :
    ((∃ r ∈ data, r.itemCode = some c ∧ r.branch = some b ∧ r.salesQty.getD 0 > 0) →
      ∃ p β rec,
        (ImportCsv.importCSVSalesData data h1 h2 randB randI db0).products c = some p
        ∧ (ImportCsv.importCSVSalesData data h1 h2 randB randI db0).branches b = some β
        ∧ (ImportCsv.importCSVSalesData data h1 h2 randB randI db0).inventory
            (p.id, β.id) = some rec
        ∧ rec.billing = Js.round (ImportCsv.posTotal c b data))
    ∧ (∀ p β,
        (ImportCsv.importCSVSalesData data h1 h2 randB randI db0).products c = some p →
        (ImportCsv.importCSVSalesData data h1 h2 randB randI db0).branches b = some β →
        (∀ r ∈ data, ¬(r.itemCode = some c ∧ r.branch = some b ∧
          r.salesQty.getD 0 > 0)) →
        (ImportCsv.importCSVSalesData data h1 h2 randB randI db0).inventory
          (p.id, β.id) = none) := by
  rw [show ImportCsv.importCSVSalesData data h1 h2 randB randI db0 =
    Model.applySteps (ImportCsv.invSteps randI 0 (ImportCsv.aggregateSales data))
      (ImportCsv.insertProductsPhase (ImportCsv.collectProducts data)
        (ImportCsv.insertBranchesPhase (ImportCsv.branchList data) randB
          (ImportCsv.insertDefaultUsers h1 h2 (ImportCsv.truncateAll db0)))) from rfl]
  set db1 := ImportCsv.insertDefaultUsers h1 h2 (ImportCsv.truncateAll db0) with hdb1e
  set db2 := ImportCsv.insertBranchesPhase (ImportCsv.branchList data) randB db1
    with hdb2e
  set db3 := ImportCsv.insertProductsPhase (ImportCsv.collectProducts data) db2
    with hdb3e
  have hdb1b : db1.branches = fun _ => none := by rw [hdb1e]; rfl
  have hdb1n : db1.nextBranchId = 1 := by rw [hdb1e]; rfl
  have hdb1p : db1.products = fun _ => none := by rw [hdb1e]; rfl
  have hdb1pn : db1.nextProductId = 1 := by rw [hdb1e]; rfl
  have hdb1i : db1.inventory = fun _ => none := by rw [hdb1e]; rfl
  have hfr := csvInvSteps_frame randI (ImportCsv.aggregateSales data) 0 db3
  have hbph : db2 = Model.applySteps
      (ImportCsv.branchSteps randB 0 (ImportCsv.branchList data)) db1 := hdb2e
  have hbinv := branchSteps_inv randB (ImportCsv.branchList data) 0 db1
    (by rw [hdb1n]; exact Nat.one_pos)
    (fun m rr hm => by rw [hdb1b] at hm; exact Option.noConfusion hm)
    (fun m1 m2 r1 r2 hm1 _ _ => by rw [hdb1b] at hm1; exact Option.noConfusion hm1)
  have hdb2brs : db2.branches = (Model.applySteps
      (ImportCsv.branchSteps randB 0 (ImportCsv.branchList data)) db1).branches := by
    rw [hbph]
  have hdb3br : db3.branches = db2.branches := by
    rw [hdb3e]
    exact (csvProductsPhase_frame (ImportCsv.collectProducts data) db2).1
  have hinjB3 : ∀ n1 n2 r1 r2, db3.branches n1 = some r1 → db3.branches n2 = some r2 →
      r1.id = r2.id → n1 = n2 := by
    intro n1 n2 r1 r2 hm1 hm2 hid
    rw [hdb3br, hdb2brs] at hm1 hm2
    exact hbinv.2.2 n1 n2 r1 r2 hm1 hm2 hid
  have hbid3 : ∀ n rr, db3.branches n = some rr → rr.id ≠ 0 := by
    intro n rr hm
    rw [hdb3br, hdb2brs] at hm
    have := hbinv.2.1 n rr hm
    omega
  have hdb2p : db2.products = db1.products := by
    rw [hbph]
    exact (branchSteps_frame randB (ImportCsv.branchList data) 0 db1).1
  have hdb2pn : db2.nextProductId = db1.nextProductId := by
    rw [hbph]
    exact (branchSteps_frame randB (ImportCsv.branchList data) 0 db1).2.2.2
  have hpinv := csvProductsPhase_inv (ImportCsv.collectProducts data) db2
    (by rw [hdb2pn, hdb1pn]; exact Nat.one_pos)
    (fun m q hm => by rw [hdb2p, hdb1p] at hm; exact Option.noConfusion hm)
    (fun m1 m2 q1 q2 hm1 _ _ => by rw [hdb2p, hdb1p] at hm1; exact Option.noConfusion hm1)
  have hinjP3 : ∀ m1 m2 q1 q2, db3.products m1 = some q1 → db3.products m2 = some q2 →
      q1.id = q2.id → m1 = m2 := by
    intro m1 m2 q1 q2 hm1 hm2 hid
    rw [hdb3e] at hm1 hm2
    exact hpinv.2.2 m1 m2 q1 q2 hm1 hm2 hid
  have hpid3 : ∀ m q, db3.products m = some q → q.id ≠ 0 := by
    intro m q hm
    rw [hdb3e] at hm
    have := hpinv.2.1 m q hm
    omega
  have hdb3i : db3.inventory = fun _ => none := by
    rw [hdb3e]
    rw [(csvProductsPhase_frame (ImportCsv.collectProducts data) db2).2.2.1]
    rw [hbph]
    rw [(branchSteps_frame randB (ImportCsv.branchList data) 0 db1).2.2.1]
    exact hdb1i
  have hnd : (ImportCsv.aggregateSales data).Pairwise (fun x y => x.1 ≠ y.1) :=
    aggregateSales_nodup data [] List.Pairwise.nil
  have hprov : ∀ x ∈ ImportCsv.aggregateSales data,
      x.1 = Upload.makeKey x.2.itemCode x.2.branchName ∧ '-' ∉ x.2.itemCode.data := by
    intro x hx
    have hefd := agg_entry_inv data data (fun r' hr' => hr') []
      (fun y hy => absurd hy (List.not_mem_nil y)) x hx
    obtain ⟨hk, hict, hbnt, r', hr', hric', hrb'⟩ := hefd
    exact ⟨hk, hhyph r' hr' x.2.itemCode hric'⟩
  constructor
  · rintro ⟨r, hr, hric, hrb, hrq⟩
    obtain ⟨r0, hr0⟩ : ∃ r0, data.find? (fun r' => decide (r'.itemCode = some c)) =
        some r0 := by
      cases hfind : data.find? (fun r' => decide (r'.itemCode = some c)) with
      | some r0 => exact ⟨r0, rfl⟩
      | none =>
        rw [List.find?_eq_none] at hfind
        exact absurd (by simpa using hric) (by simpa using hfind r hr)
    have hcol := collect_absent data c hc [] (fun q hq => absurd hq (List.not_mem_nil q))
    have hcnt : (ImportCsv.collectProducts data).countP
        (fun q => decide (q.material = c)) = 1 := by
      have h := hcol.2
      rw [hr0] at h
      simp at h
      exact h
    have hfindc : (ImportCsv.collectProducts data).find?
        (fun q => decide (q.material = c)) = some (ImportCsv.prodOfRow c r0) := by
      have h := hcol.1
      rw [hr0] at h
      simp at h
      exact h
    have hexp : ∃ P, db3.products c = some P := by
      obtain ⟨pid, hp3⟩ := csvProductsPhase_insert (ImportCsv.collectProducts data) c
        (ImportCsv.prodOfRow c r0) db2 hcnt hfindc
      exact ⟨_, by rw [hdb3e]; exact hp3⟩
    obtain ⟨P, hp3⟩ := hexp
    have hbmem : b ∈ ImportCsv.branchList data := branchList_mem data r b hr hrb hb
    obtain ⟨β, hβ2⟩ := branchesPhase_present randB (ImportCsv.branchList data) 0 db1
      b hbmem
    have hβ3 : db3.branches b = some β := by
      rw [hdb3br, hdb2brs]
      exact hβ2
    obtain ⟨e, hlook, he1, he2, hetot⟩ :=
      (agg_total_absent c b hcf hc hb data hhyph [] rfl).2 ⟨r, hr, hric, hrb, hrq⟩
    have hfoldA := inv_fold randI c b hcf P β (hpid3 c P hp3) (hbid3 b β hβ3)
      (ImportCsv.aggregateSales data) 0 db3 hnd hprov hp3 hβ3 hinjP3 hinjB3
    obtain ⟨rec, hrec, hbill⟩ := hfoldA.2 e hlook
    refine ⟨P, β, rec, ?_, ?_, hrec, ?_⟩
    · rw [hfr.1]
      exact hp3
    · rw [hfr.2.1]
      exact hβ3
    · rw [hbill, hetot]
  · intro p β hp hβ hnone
    rw [hfr.1] at hp
    rw [hfr.2.1] at hβ
    have hlooknone := (agg_total_absent c b hcf hc hb data hhyph [] rfl).1 hnone
    have hfoldB := inv_fold randI c b hcf p β (hpid3 c p hp) (hbid3 b β hβ)
      (ImportCsv.aggregateSales data) 0 db3 hnd hprov hp hβ hinjP3 hinjB3
    rw [hfoldB.1 hlooknone, hdb3i]

theorem invStep_write (rand : ℕ → ℚ) (i : ℕ) (e : ImportCsv.AggEntry) (db : Model.DB)
    (p : Model.ProductRec) (β : Model.BranchRec)
    (hp : db.products e.itemCode = some p) (hβ : db.branches e.branchName = some β)
    (hpid : p.id ≠ 0) (hbid : β.id ≠ 0) :
    (ImportCsv.invStep rand i e db).inventory (p.id, β.id) =
      some ⟨Js.round ((Js.round ((Js.round ((Js.round e.totalSales : ℚ) *
          (9/10 + rand (4 * i) * (4/10))) : ℚ) *
          (1/10 + rand (4 * i + 1) * (8/10))) : ℚ) + (Js.round e.totalSales : ℚ)
          + rand (4 * i + 3) * 100),
        Js.round ((Js.round ((Js.round e.totalSales : ℚ) *
          (9/10 + rand (4 * i) * (4/10))) : ℚ) * (1/10 + rand (4 * i + 1) * (8/10))),
        Js.round ((Js.round ((Js.round e.totalSales : ℚ) *
          (9/10 + rand (4 * i) * (4/10))) : ℚ) * (5/100 + rand (4 * i + 2) * (15/100))),
        Js.round e.totalSales,
        Js.round ((Js.round e.totalSales : ℚ) * (9/10 + rand (4 * i) * (4/10)))⟩ := by
  unfold ImportCsv.invStep
  rw [hp, hβ]
  simp only [ne_eq]
  rw [if_pos ⟨hpid, hbid⟩]
  simp [Upload.upsertInventorySet]

/-- C6 counterexample: the script's aggregation key is the template literal
itemCode-branchName, so with a hyphenated item code the pairs (A-B, C) and
(A, B-C) collide on the key A-B-C; the run writes one inventory record for
product A-B at branch C whose billing 3 merges both rows instead of the
rounded pair sum 1. -/
theorem billing_key_collision :
    ∃ p β rec,
      (ImportCsv.importCSVSalesData [c6rowA, c6rowB] "h1" "h2" (fun _ => 0) (fun _ => 0)
        Model.emptyDB).products "A-B" = some p
      ∧ (ImportCsv.importCSVSalesData [c6rowA, c6rowB] "h1" "h2" (fun _ => 0) (fun _ => 0)
        Model.emptyDB).branches "C" = some β
      ∧ (ImportCsv.importCSVSalesData [c6rowA, c6rowB] "h1" "h2" (fun _ => 0) (fun _ => 0)
        Model.emptyDB).inventory (p.id, β.id) = some rec
      ∧ rec.billing ≠ Js.round (ImportCsv.posTotal "A-B" "C" [c6rowA, c6rowB]) := by
  have hagg : ImportCsv.aggregateSales [c6rowA, c6rowB] =
      [("A-B-C", ⟨"A-B", "C", 3, 2⟩)] := by
    have hne1 : ¬("A-B" : String) = "" := by decide
    have hne2 : ¬("C" : String) = "" := by decide
    have hne3 : ¬("A" : String) = "" := by decide
    have hne4 : ¬("B-C" : String) = "" := by decide
    have hs1 : ("A-B" ++ "-" ++ "C" : String) = "A-B-C" := rfl
    have hs2 : ("A" ++ "-" ++ "B-C" : String) = "A-B-C" := rfl
    norm_num [ImportCsv.aggregateSales, ImportCsv.aggStep, ImportCsv.bumpAgg,
      Upload.makeKey, c6rowA, c6rowB, Row.blank, hne1, hne2, hne3, hne4, hs1, hs2]
  have hpos : ImportCsv.posTotal "A-B" "C" [c6rowA, c6rowB] = 1 := by
    rw [posTotal_cons, posTotal_cons]
    rw [if_pos ⟨rfl, rfl, by norm_num [c6rowA, Row.blank]⟩]
    rw [if_neg (fun hcon => by
      have h := hcon.1
      rw [show c6rowB.itemCode = some "A" from rfl] at h
      exact absurd (Option.some_inj.mp h) (by decide))]
    norm_num [ImportCsv.posTotal, c6rowA, Row.blank]
  rw [show ImportCsv.importCSVSalesData [c6rowA, c6rowB] "h1" "h2" (fun _ => 0)
      (fun _ => 0) Model.emptyDB =
    Model.applySteps (ImportCsv.invSteps (fun _ => 0) 0
        (ImportCsv.aggregateSales [c6rowA, c6rowB]))
      (ImportCsv.insertProductsPhase (ImportCsv.collectProducts [c6rowA, c6rowB])
        (ImportCsv.insertBranchesPhase (ImportCsv.branchList [c6rowA, c6rowB])
          (fun _ => 0)
          (ImportCsv.insertDefaultUsers "h1" "h2"
            (ImportCsv.truncateAll Model.emptyDB)))) from rfl]
  rw [hagg]
  set db1 := ImportCsv.insertDefaultUsers "h1" "h2" (ImportCsv.truncateAll Model.emptyDB)
    with hdb1e
  set db2 := ImportCsv.insertBranchesPhase (ImportCsv.branchList [c6rowA, c6rowB])
    (fun _ => 0) db1 with hdb2e
  set db3 := ImportCsv.insertProductsPhase (ImportCsv.collectProducts [c6rowA, c6rowB])
    db2 with hdb3e
  have hdb1b : db1.branches = fun _ => none := by rw [hdb1e]; rfl
  have hdb1n : db1.nextBranchId = 1 := by rw [hdb1e]; rfl
  have hdb1p : db1.products = fun _ => none := by rw [hdb1e]; rfl
  have hdb1pn : db1.nextProductId = 1 := by rw [hdb1e]; rfl
  have hbph : db2 = Model.applySteps
      (ImportCsv.branchSteps (fun _ => 0) 0 (ImportCsv.branchList [c6rowA, c6rowB]))
      db1 := hdb2e
  have hbinv := branchSteps_inv (fun _ => 0) (ImportCsv.branchList [c6rowA, c6rowB]) 0 db1
    (by rw [hdb1n]; exact Nat.one_pos)
    (fun m rr hm => by rw [hdb1b] at hm; exact Option.noConfusion hm)
    (fun m1 m2 r1 r2 hm1 _ _ => by rw [hdb1b] at hm1; exact Option.noConfusion hm1)
  have hdb3br : db3.branches = db2.branches := by
    rw [hdb3e]
    exact (csvProductsPhase_frame (ImportCsv.collectProducts [c6rowA, c6rowB]) db2).1
  have hdb2p : db2.products = db1.products := by
    rw [hbph]
    exact (branchSteps_frame (fun _ => 0) (ImportCsv.branchList [c6rowA, c6rowB]) 0 db1).1
  have hdb2pn : db2.nextProductId = db1.nextProductId := by
    rw [hbph]
    exact (branchSteps_frame (fun _ => 0)
      (ImportCsv.branchList [c6rowA, c6rowB]) 0 db1).2.2.2
  have hpinv := csvProductsPhase_inv (ImportCsv.collectProducts [c6rowA, c6rowB]) db2
    (by rw [hdb2pn, hdb1pn]; exact Nat.one_pos)
    (fun m q hm => by rw [hdb2p, hdb1p] at hm; exact Option.noConfusion hm)
    (fun m1 m2 q1 q2 hm1 _ _ => by rw [hdb2p, hdb1p] at hm1; exact Option.noConfusion hm1)
  have hcnt : (ImportCsv.collectProducts [c6rowA, c6rowB]).countP
      (fun q => decide (q.material = "A-B")) = 1 := by
    simp [ImportCsv.collectProducts, ImportCsv.collectStep, ImportCsv.prodOfRow,
      c6rowA, c6rowB, Row.blank]
  have hfindc : (ImportCsv.collectProducts [c6rowA, c6rowB]).find?
      (fun q => decide (q.material = "A-B")) =
      some (ImportCsv.prodOfRow "A-B" c6rowA) := by
    simp [ImportCsv.collectProducts, ImportCsv.collectStep, ImportCsv.prodOfRow,
      c6rowA, c6rowB, Row.blank, List.find?]
  obtain ⟨P, hp3⟩ : ∃ P, db3.products "A-B" = some P := by
    obtain ⟨pid, hp3⟩ := csvProductsPhase_insert (ImportCsv.collectProducts
      [c6rowA, c6rowB]) "A-B" (ImportCsv.prodOfRow "A-B" c6rowA) db2 hcnt hfindc
    exact ⟨_, by rw [hdb3e]; exact hp3⟩
  have hbmem : "C" ∈ ImportCsv.branchList [c6rowA, c6rowB] := by decide
  obtain ⟨β, hβ2⟩ := branchesPhase_present (fun _ => 0)
    (ImportCsv.branchList [c6rowA, c6rowB]) 0 db1 "C" hbmem
  have hβ3 : db3.branches "C" = some β := by
    rw [hdb3br, hbph]
    exact hβ2
  have hPid : P.id ≠ 0 := by
    have hm := hp3
    rw [hdb3e] at hm
    have := hpinv.2.1 "A-B" P hm
    omega
  have hβid : β.id ≠ 0 := by
    have hm := hβ3
    rw [hdb3br, hbph] at hm
    have := hbinv.2.1 "C" β hm
    omega
  have hfr1 := csvInvStep_frame (fun _ => 0) 0 ⟨"A-B", "C", 3, 2⟩ db3
  have hstep := invStep_write (fun _ => 0) 0 ⟨"A-B", "C", 3, 2⟩ db3 P β hp3 hβ3 hPid hβid
  refine ⟨P, β, _, ?_, ?_, hstep, ?_⟩
  · show (ImportCsv.invStep (fun _ => 0) 0 ⟨"A-B", "C", 3, 2⟩ db3).products "A-B" = some P
    rw [hfr1.1]
    exact hp3
  · show (ImportCsv.invStep (fun _ => 0) 0 ⟨"A-B", "C", 3, 2⟩ db3).branches "C" = some β
    rw [hfr1.2.1]
    exact hβ3
  · rw [hpos]
    show Js.round ((3 : ℚ)) ≠ Js.round 1
    norm_num [Js.round]

/-- Witness for the C6 theorem: the one-row hyphen-free file (code A,
branch B, quantity 2) yields exactly the record the amended claim
describes. -/
theorem billing_eq_rounded_sum_check :
    ∃ p β rec,
      (ImportCsv.importCSVSalesData [c6okRow] "h1" "h2" (fun _ => 0) (fun _ => 0)
        Model.emptyDB).products "A" = some p
      ∧ (ImportCsv.importCSVSalesData [c6okRow] "h1" "h2" (fun _ => 0) (fun _ => 0)
        Model.emptyDB).branches "B" = some β
      ∧ (ImportCsv.importCSVSalesData [c6okRow] "h1" "h2" (fun _ => 0) (fun _ => 0)
        Model.emptyDB).inventory (p.id, β.id) = some rec
      ∧ rec.billing = Js.round (ImportCsv.posTotal "A" "B" [c6okRow]) :=
  (billing_eq_rounded_sum [c6okRow] "h1" "h2" (fun _ => 0) (fun _ => 0) Model.emptyDB
    "A" "B"
    (by
      intro r hr s hs
      rw [List.mem_singleton] at hr
      subst hr
      rw [show c6okRow.itemCode = some "A" from rfl, Option.some_inj] at hs
      subst hs
      decide)
    (by decide) (by decide) (by decide)).1
    ⟨c6okRow, List.mem_cons_self _ _, rfl, rfl, by norm_num [c6okRow, Row.blank]⟩
